import Mathlib

/-!
# Verification of the task-canvas view-state engine

A shallow embedding of the core logic of `src/js/app.js` from the
`davras5/task-canvas` repository: the filtering pipeline
(`getTasksForProject`), grouping (`getGroupsForTasks`), progress
computation (`calculateProjectProgress`), drag-and-drop reordering
(`moveTask`), task creation (`handleQuickAddTask` / `handleCreateTask`),
workflow-status deletion (`deleteWorkflowStatus`), field edits
(`updateTaskField`), the sort-dropdown state transition
(`showSortDropdown`'s click handler), and the Gantt bar geometry and
drag-commit path (`getGanttBarStyle`, `initGanttBarDragResize`).

Modelling conventions:
* JS strings are Lean `String`; `x.toLowerCase()` is `jsToLower`,
  `a.includes(b)` is `jsIncludes a b` (substring containment).
* Nullable / possibly-absent JS fields are `Option`.
* ISO timestamps (`new Date().toISOString()`) are abstracted as a `Nat`
  clock value passed to each mutating operation as `now`.
* Calendar dates (`YYYY-MM-DD` strings and JS `Date` objects at UTC
  midnight) are represented as integer day numbers since the Unix epoch;
  `daysFromCivil`/`civilFromDays` convert between day numbers and
  `(year, month, day)` triples exactly as proleptic-Gregorian JS `Date`
  arithmetic does.
* JS object mutation through shared references is rendered functionally:
  the task list of the state is rebuilt with the mutated tasks substituted
  by `id`; theorems that depend on this carry a `Nodup` hypothesis on ids,
  matching the app's data where ids are unique.
* `Array.prototype.sort` (stable since ES2019) is rendered by the stable
  insertion sort `jsStableSort`.
* Per-project view-state maps (`state.taskSearch[id] || default`, etc.)
  are `String → Option _` functions read through `Option.getD`.
-/

namespace TaskCanvas

/-! ## JS string primitives -/

/-- JS `s.toLowerCase()` (ASCII case mapping), written on the character
list so the kernel can evaluate it. -/
def jsToLower (s : String) : String := ⟨s.data.map Char.toLower⟩

/-- JS `s.trim()`: strip whitespace from both ends. -/
def jsTrim (s : String) : String :=
  ⟨((s.data.dropWhile Char.isWhitespace).reverse.dropWhile Char.isWhitespace).reverse⟩

/-- Does the character list `needle` occur at the start of `hay`? -/
def strStarts : List Char → List Char → Bool
  | [], _ => true
  | _ :: _, [] => false
  | a :: as, b :: bs => a = b && strStarts as bs

/-- Does the character list `needle` occur contiguously inside `hay`? -/
def strContainsAux (needle : List Char) : List Char → Bool
  | [] => strStarts needle []
  | b :: bs => strStarts needle (b :: bs) || strContainsAux needle bs

/-- JS `hay.includes(needle)`: substring containment. -/
def jsIncludes (hay needle : String) : Bool :=
  strContainsAux needle.toList hay.toList

/-! ## Calendar arithmetic (JS `Date` at UTC midnight)

`daysFromCivil y m d` is the number of days from 1970-01-01 to the
proleptic-Gregorian date `y-m-d` (Howard Hinnant's algorithm, the same
arithmetic JS `Date.UTC` performs); `civilFromDays` is its inverse and
models `toISOString().split('T')[0]`. All divisions below have
nonnegative divisors, where Lean's `Int` division is floor division as
required. -/

/-- A civil calendar date `(year, month, day)`, the content of an ISO
`YYYY-MM-DD` string. -/
structure CivilDate where
  year : Int
  month : Int
  day : Int
deriving DecidableEq, Repr

/-- Day number since 1970-01-01 of a civil date. -/
def daysFromCivil (c : CivilDate) : Int :=
  let y := if c.month ≤ 2 then c.year - 1 else c.year
  let era := (if 0 ≤ y then y else y - 399) / 400
  let yoe := y - era * 400
  let doy := (153 * (c.month + (if 2 < c.month then -3 else 9)) + 2) / 5 + c.day - 1
  let doe := yoe * 365 + yoe / 4 - yoe / 100 + doy
  era * 146097 + doe - 719468

/-- Civil date of a day number since 1970-01-01. -/
def civilFromDays (z0 : Int) : CivilDate :=
  let z := z0 + 719468
  let era := (if 0 ≤ z then z else z - 146096) / 146097
  let doe := z - era * 146097
  let yoe := (doe - doe / 1460 + doe / 36524 - doe / 146096) / 365
  let y := yoe + era * 400
  let doy := doe - (365 * yoe + yoe / 4 - yoe / 100)
  let mp := (5 * doy + 2) / 153
  let d := doy - (153 * mp + 2) / 5 + 1
  let m := mp + (if mp < 10 then 3 else -9)
  ⟨if m ≤ 2 then y + 1 else y, m, d⟩

/-! ## Data model (`src/DATA-MODEL.md`, `state.js` shapes) -/

structure Task where
  id : String
  project_id : String
  sequence_id : Nat
  title : String
  description : Option String
  /-- stored `key` field of a task record, when present in the loaded
  JSON; tasks created by the app do not set it -/
  key : Option String
  status_id : Option String
  priority_id : Option String
  assignee_id : Option String
  due_date : Option CivilDate
  start_date : Option CivilDate
  label_ids : List String
  /-- `sort_order`; `none` models a JS `undefined` field (the code reads
  it as `t.sort_order || 0`) -/
  sort_order : Option Nat
  is_archived : Bool
  created_at : Nat
  updated_at : Nat
deriving DecidableEq, Repr

structure Status where
  id : String
  project_id : String
  name : String
  color : String
  category : String
  sort_order : Int
deriving DecidableEq, Repr

structure Priority where
  id : String
  name : String
  color : String
  sort_order : Int
deriving DecidableEq, Repr

structure Label where
  id : String
  project_id : String
  name : String
  color : String
deriving DecidableEq, Repr

structure User where
  id : String
  name : String
  email : String
deriving DecidableEq, Repr

structure Project where
  id : String
  identifier : String
  slug : String
  name : String
deriving DecidableEq, Repr

/-- Sort setting `{ field, direction }` stored in `state.projectSort`. -/
inductive SortField
  | manual | title | priority | dueDate | created | updated
deriving DecidableEq, Repr

inductive SortDirection
  | asc | desc
deriving DecidableEq, Repr

structure SortSetting where
  field : SortField
  direction : SortDirection
deriving DecidableEq, Repr

/-- The slice of the module-level `state` object that the embedded
operations read and write. Per-project maps are functions returning
`Option`; reads go through the JS `state.m[pid] || default` idiom. -/
structure AppState where
  tasks : List Task
  statuses : List Status
  users : List User
  priorities : List Priority
  labels : List Label
  projects : List Project
  showArchivedTasks : String → Option Bool
  taskSearch : String → Option String
  assignedToMe : String → Option Bool
  assigneeFilter : String → Option (List String)
  projectSort : String → Option SortSetting

/-! ## Stable sorting (JS `Array.prototype.sort`, stable per ES2019) -/

/-- Insert `x` into the already-sorted `acc` after every element `y`
with `le y x` (so after all elements comparing equal to `x`). -/
def insertStable {α : Type} (le : α → α → Bool) (x : α) : List α → List α
  | [] => [x]
  | y :: ys => if le y x then y :: insertStable le x ys else x :: y :: ys

/-- Stable insertion sort: the unique stable sort for a total preorder
comparator, hence the output of JS `Array.prototype.sort` under the
numeric comparators the app uses. -/
def jsStableSort {α : Type} (le : α → α → Bool) (l : List α) : List α :=
  l.foldl (fun acc x => insertStable le x acc) []

/-! ## Data helpers (`app.js` lines 164–300) -/

def getProjectById (s : AppState) (id : String) : Option Project :=
  s.projects.find? (fun p => p.id = id)

def getProjectBySlug (s : AppState) (slug : String) : Option Project :=
  s.projects.find? (fun p => p.slug = slug)

def getTaskById (s : AppState) (id : String) : Option Task :=
  s.tasks.find? (fun t => t.id = id)

def getStatusById (s : AppState) (id : String) : Option Status :=
  s.statuses.find? (fun st => st.id = id)

def getStatusesForProject (s : AppState) (projectId : String) : List Status :=
  jsStableSort (fun a b => a.sort_order ≤ b.sort_order)
    (s.statuses.filter (fun st => st.project_id = projectId))

def getUserById (s : AppState) (id : String) : Option User :=
  s.users.find? (fun u => u.id = id)

/-- `getCurrentUser`: the first user (`state.users[0]`). -/
def getCurrentUser (s : AppState) : Option User :=
  s.users.head?

def getPriorityById (s : AppState) (id : String) : Option Priority :=
  s.priorities.find? (fun p => p.id = id)

def getLabelById (s : AppState) (id : String) : Option Label :=
  s.labels.find? (fun l => l.id = id)

/-! ## The filtering pipeline (`getTasksForProject`, app.js 172–220) -/

/-- The predicate of the single `state.tasks.filter(...)` call inside
`getTasksForProject`: project, archived, assigned-to-me, assignee
multi-select and search stages in source order, early-returning `false`
as the code does. -/
def taskPassesFilters (s : AppState) (projectId : String) (showArchived : Bool)
    (searchQuery : String) (filterAssignedToMe : Bool) (t : Task) : Bool :=
  -- Project filter
  if t.project_id ≠ projectId then false
  -- Archived filter
  else if !showArchived && t.is_archived then false
  -- Assigned to me filter
  else if filterAssignedToMe && (getCurrentUser s).isSome &&
          !((getCurrentUser s).map User.id = t.assignee_id) then false
  else
    -- Assignee filter (multi-select)
    let selectedAssignees := (s.assigneeFilter projectId).getD []
    let assigneeOk :=
      if selectedAssignees.length > 0 then
        let hasUnassigned := selectedAssignees.contains "unassigned"
        let taskAssigneeSelected :=
          match t.assignee_id with
          | some a => selectedAssignees.contains a
          | none => false
        let taskIsUnassigned := t.assignee_id.isNone && hasUnassigned
        taskAssigneeSelected || taskIsUnassigned
      else true
    if !assigneeOk then false
    else
      -- Search filter
      if searchQuery ≠ "" then
        let titleMatch := jsIncludes (jsToLower t.title) searchQuery
        let descMatch := (t.description.map (fun d => jsIncludes (jsToLower d) searchQuery)).getD false
        let keyMatch := (t.key.map (fun k => jsIncludes (jsToLower k) searchQuery)).getD false
        let assignee := t.assignee_id.bind (getUserById s)
        let assigneeMatch := (assignee.map (fun u => jsIncludes (jsToLower u.name) searchQuery)).getD false
        let labelNames := t.label_ids.map (fun id => (getLabelById s id).map (fun l => jsToLower l.name))
        let labelMatch := labelNames.any (fun n => (n.map (fun nm => jsIncludes nm searchQuery)).getD false)
        titleMatch || descMatch || keyMatch || assigneeMatch || labelMatch
      else true

/-- `getTasksForProject(projectId, includeArchived = null)`. -/
def getTasksForProject (s : AppState) (projectId : String)
    (includeArchived : Option Bool := none) : List Task :=
  let showArchived := includeArchived.getD ((s.showArchivedTasks projectId).getD false)
  let searchQuery := jsTrim (jsToLower ((s.taskSearch projectId).getD ""))
  let filterAssignedToMe := (s.assignedToMe projectId).getD false
  s.tasks.filter (taskPassesFilters s projectId showArchived searchQuery filterAssignedToMe)

/-! ## Members, progress (`app.js` 358–378) -/

/-- First-occurrence deduplication with an accumulator of already-seen
elements. -/
def dedupKeepFirstAux (seen : List String) : List String → List String
  | [] => []
  | x :: xs =>
    if seen.contains x then dedupKeepFirstAux seen xs
    else x :: dedupKeepFirstAux (x :: seen) xs

/-- First-occurrence deduplication: JS `[...new Set(xs)]`. -/
def dedupKeepFirst (l : List String) : List String :=
  dedupKeepFirstAux [] l

/-- `getProjectMembers`: distinct assignees of the project's (filtered)
tasks, in first-encounter order, resolved to users. -/
def getProjectMembers (s : AppState) (projectId : String) : List User :=
  let tasks := getTasksForProject s projectId
  let memberIds := dedupKeepFirst (tasks.filterMap Task.assignee_id)
  memberIds.filterMap (getUserById s)

/-- JS `Math.round`: nearest integer, halves towards `+∞`
(`Math.round(x) = ⌊x + 0.5⌋`), written as an integer division so the
kernel can evaluate it; `jsRound_eq_floor` below relates it to `⌊·⌋`. -/
def jsRound (q : ℚ) : Int := (2 * q.num + (q.den : Int)) / (2 * (q.den : Int))

/-- Result record of `calculateProjectProgress`. -/
structure Progress where
  done : Nat
  total : Nat
  percentage : Int
deriving DecidableEq, Repr

/-- `calculateProjectProgress(projectId)` (app.js 358–373). -/
def calculateProjectProgress (s : AppState) (projectId : String) : Progress :=
  let tasks := getTasksForProject s projectId
  if tasks.length = 0 then ⟨0, 0, 0⟩
  else
    let statuses := getStatusesForProject s projectId
    let doneStatusIds := (statuses.filter (fun st => st.category = "done")).map Status.id
    let doneTasks := tasks.filter (fun t =>
      match t.status_id with
      | some sid => doneStatusIds.contains sid
      | none => false)
    ⟨doneTasks.length, tasks.length,
      jsRound ((doneTasks.length : ℚ) / (tasks.length : ℚ) * 100)⟩

/-! ## Grouping (`getGroupsForTasks`, app.js 1054–1146)

`tasksByGroup` is a JS object; it is modelled as the partial map
`String → Option (List Task)` updated exactly as the code updates the
object. Presentation-only group attributes (colors, the
`priorityId`/`assigneeId` payload duplicates) are omitted. -/

structure Group where
  id : String
  name : String
  type : String
deriving DecidableEq, Repr

/-- The empty JS object `{}`. -/
def emptyDict : String → Option (List Task) := fun _ => none

/-- JS `d[k] = v`. -/
def dictSet (d : String → Option (List Task)) (k : String) (v : List Task) :
    String → Option (List Task) :=
  fun x => if x = k then some v else d x

/-- JS `d[k].push(t)` (the code only pushes to keys it initialised). -/
def dictPush (d : String → Option (List Task)) (k : String) (t : Task) :
    String → Option (List Task) :=
  dictSet d k ((d k).getD [] ++ [t])

/-- Loop body of the status-grouping `tasks.forEach`: push the task into
its status bucket when the key exists, otherwise drop it. -/
def statusStep (d : String → Option (List Task)) (t : Task) :
    String → Option (List Task) :=
  match t.status_id with
  | some sid => if (d sid).isSome then dictPush d sid t else d
  | none => d

/-- Loop body of the priority-grouping `tasks.forEach`: push into
`task.priority_id || 'priority-none'`, falling back to the
`priority-none` bucket for unknown keys. -/
def priorityStep (d : String → Option (List Task)) (t : Task) :
    String → Option (List Task) :=
  let groupId := t.priority_id.getD "priority-none"
  if (d groupId).isSome then dictPush d groupId t
  else dictPush d "priority-none" t

/-- Loop body of the assignee-grouping `tasks.forEach`: push into
`assignee-<id>` when that member bucket exists, else into `unassigned`. -/
def assigneeStep (d : String → Option (List Task)) (t : Task) :
    String → Option (List Task) :=
  match t.assignee_id with
  | some aid =>
    let groupId := "assignee-" ++ aid
    if (d groupId).isSome then dictPush d groupId t
    else dictPush d "unassigned" t
  | none => dictPush d "unassigned" t

def getGroupsForTasks (s : AppState) (tasks : List Task) (project : Project)
    (groupBy : String) : List Group × (String → Option (List Task)) :=
  if groupBy = "none" then
    ([⟨"all-tasks", "All Tasks", "none"⟩], dictSet emptyDict "all-tasks" tasks)
  else if groupBy = "status" then
    let statuses := getStatusesForProject s project.id
    let groups := statuses.map (fun st => (⟨st.id, st.name, "status"⟩ : Group))
    let d0 := statuses.foldl (fun d st => dictSet d st.id []) emptyDict
    (groups, tasks.foldl statusStep d0)
  else if groupBy = "priority" then
    let pgroups : List Group :=
      [⟨"priority-high", "High", "priority"⟩,
       ⟨"priority-medium", "Medium", "priority"⟩,
       ⟨"priority-low", "Low", "priority"⟩,
       ⟨"priority-none", "No Priority", "priority"⟩]
    let d0 := pgroups.foldl (fun d g => dictSet d g.id []) emptyDict
    (pgroups, tasks.foldl priorityStep d0)
  else if groupBy = "assignee" then
    let members := getProjectMembers s project.id
    let groups := (⟨"unassigned", "Unassigned", "assignee"⟩ : Group) ::
      members.map (fun m => (⟨"assignee-" ++ m.id, m.name, "assignee"⟩ : Group))
    let d0 := members.foldl (fun d m => dictSet d ("assignee-" ++ m.id) [])
      (dictSet emptyDict "unassigned" [])
    (groups, tasks.foldl assigneeStep d0)
  else ([], emptyDict)

/-- `renderTaskListView` renders, for each group in order, the bucket
`tasksByGroup[group.id] || []`; this is the concatenated display order. -/
def renderedGroupTasks (gd : List Group × (String → Option (List Task))) :
    List (List Task) :=
  gd.1.map (fun g => (gd.2 g.id).getD [])

/-! ## Sort dropdown (`getProjectSort` 898, `showSortDropdown` 5124–5175) -/

def getProjectSort (s : AppState) (projectId : String) : SortSetting :=
  (s.projectSort projectId).getD ⟨SortField.manual, SortDirection.asc⟩

/-- The click handler of `showSortDropdown`'s items: flips direction when
re-selecting the active non-manual field, else resets to ascending. -/
def sortSelectTransition (current : SortSetting) (field : SortField) : SortSetting :=
  if field = current.field ∧ field ≠ SortField.manual then
    ⟨field, if current.direction = SortDirection.asc
            then SortDirection.desc else SortDirection.asc⟩
  else ⟨field, SortDirection.asc⟩

/-- State update performed by the sort-dropdown click handler. -/
def showSortDropdownClick (s : AppState) (projectId : String) (field : SortField) :
    AppState :=
  { s with projectSort := fun pid =>
      if pid = projectId then some (sortSelectTransition (getProjectSort s projectId) field)
      else s.projectSort pid }

/-! ## Task creation (`handleCreateTask` 4281ff, `handleQuickAddTask` 5638ff) -/

/-- `projectTasks.reduce((max, t) => Math.max(max, t.sequence_id || 0), 0)`. -/
def maxSeqOf (tasks : List Task) : Nat :=
  tasks.foldl (fun m t => max m t.sequence_id) 0

/-- JS `s.replace(needle, '')`: remove the first occurrence of `needle`. -/
def removeFirstOcc (needle : List Char) : List Char → List Char
  | [] => []
  | b :: bs =>
    if strStarts needle (b :: bs) then List.drop needle.length (b :: bs)
    else b :: removeFirstOcc needle bs

def jsReplaceEmpty (s needle : String) : String :=
  ⟨removeFirstOcc needle.toList s.toList⟩

/-- `handleQuickAddTask(groupId, groupType, projectSlug)`. The input
element's trimmed value is the `title` parameter; `generateId` is the
`newId` parameter. -/
def handleQuickAddTask (s : AppState) (now : Nat) (newId : String) (title : String)
    (groupId : String) (groupType : String) (slug : String) : AppState :=
  if title = "" then s
  else
    match getProjectBySlug s slug with
    | none => s
    | some project =>
      let projectTasks := getTasksForProject s project.id
      let maxSeq := maxSeqOf projectTasks
      let statuses := getStatusesForProject s project.id
      let defaultStatus := match statuses.find? (fun st => st.category = "todo") with
        | some st => some st
        | none => statuses.head?
      let ids : Option String × Option String × Option String :=
        if groupType = "status" then (some groupId, none, none)
        else if groupType = "priority" then
          (defaultStatus.map Status.id,
           if groupId = "priority-none" then none else some groupId, none)
        else if groupType = "assignee" then
          (defaultStatus.map Status.id, none,
           if groupId = "unassigned" then none
           else some (jsReplaceEmpty groupId "assignee-"))
        else (defaultStatus.map Status.id, none, none)
      let newTask : Task :=
        { id := newId, project_id := project.id, sequence_id := maxSeq + 1,
          title := title, description := some "", key := none,
          status_id := ids.1, priority_id := ids.2.1, assignee_id := ids.2.2,
          due_date := none, start_date := none, label_ids := [],
          sort_order := none, is_archived := false,
          created_at := now, updated_at := now }
      { s with tasks := s.tasks ++ [newTask] }

/-- Form contents of the create-task modal, post `FormData` reads
(`formData.get(f) || null`); `title` carries the already-trimmed value of
`formData.get('title')?.trim()`, mirroring how `handleQuickAddTask`'s
trimmed DOM read is a parameter. -/
structure CreateTaskForm where
  title : String
  description : String
  status_id : Option String
  priority_id : Option String
  assignee_id : Option String
  due_date : Option CivilDate
deriving DecidableEq, Repr

/-- `handleCreateTask(projectSlug)` (app.js 4281–4305). -/
def handleCreateTask (s : AppState) (now : Nat) (newId : String)
    (slug : String) (form : CreateTaskForm) : AppState :=
  match getProjectBySlug s slug with
  | none => s
  | some project =>
    let title := form.title
    if title = "" then s
    else
      let projectTasks := getTasksForProject s project.id
      let maxSeq := maxSeqOf projectTasks
      let newTask : Task :=
        { id := newId, project_id := project.id, sequence_id := maxSeq + 1,
          title := title, description := some form.description, key := none,
          status_id := form.status_id, priority_id := form.priority_id,
          assignee_id := form.assignee_id, due_date := form.due_date,
          start_date := none, label_ids := [], sort_order := none,
          is_archived := false, created_at := now, updated_at := now }
      { s with tasks := s.tasks ++ [newTask] }

/-! ## Drag and drop (`moveTask`, app.js 6956–7034) -/

/-- Replace the first task with id `tid` (the object `getTaskById`
returned and the handler mutated) by its mutated version. -/
def replaceFirstTask : List Task → String → Task → List Task
  | [], _, _ => []
  | t :: ts, tid, t' =>
    if t.id = tid then t' :: ts else t :: replaceFirstTask ts tid t'

/-- The classification update at the head of `moveTask`: depending on
`groupType`, write `status_id` / `priority_id` / `assignee_id` (with the
`priority-none` / `unassigned` / `assignee-` sentinel handling) and
refresh `updated_at` — but only when the value actually changes. Returns
the updated task and the `fieldChanged` flag. -/
def applyClassification (task : Task) (now : Nat) (groupId groupType : String) :
    Task × Bool :=
  if groupType = "status" then
    if task.status_id ≠ some groupId then
      ({ task with status_id := some groupId, updated_at := now }, true)
    else (task, false)
  else if groupType = "priority" then
    let newPriorityId := if groupId = "priority-none" then none else some groupId
    if task.priority_id ≠ newPriorityId then
      ({ task with priority_id := newPriorityId, updated_at := now }, true)
    else (task, false)
  else if groupType = "assignee" then
    let newAssigneeId :=
      if groupId = "unassigned" then none
      else some (jsReplaceEmpty groupId "assignee-")
    if task.assignee_id ≠ newAssigneeId then
      ({ task with assignee_id := newAssigneeId, updated_at := now }, true)
    else (task, false)
  else (task, false)

/-- The bucket `moveTask` reindexes: same project, same (possibly `null`)
status as the dragged task, not archived. -/
def bucketPred (projectId : String) (statusId : Option String) (t : Task) : Bool :=
  t.project_id = projectId && t.status_id = statusId && !t.is_archived

/-- The set of tasks whose `sort_order` the `targetTasks.forEach` reindex
in `moveTask` actually rewrites: the non-archived tasks of the destination
`(project, status)` bucket *together with the dragged task itself*. The
dragged task joins the reindex even when it is archived — the bucket
filter excludes it, but `targetTasks.splice(insertIndex, 0, task)` inserts
it regardless, so it absorbs one of the ranks `1..M`. -/
def reindexCohort (projectId : String) (statusId : Option String)
    (draggedId : String) (t : Task) : Bool :=
  t.project_id = projectId && t.status_id = statusId &&
    (!t.is_archived || t.id = draggedId)

/-- The comparator `(a, b) => (a.sort_order || 0) - (b.sort_order || 0)`. -/
def soLe (a b : Task) : Bool := a.sort_order.getD 0 ≤ b.sort_order.getD 0

/-- The reordered target-bucket list `moveTask` builds: collect and sort
the bucket, remove the dragged task if present, insert it at the index
derived from `relativeToTaskId`/`insertBefore` (end of list when there is
no resolvable target). -/
def computeReordered (tasks : List Task) (projectId : String) (task' : Task)
    (relativeToTaskId : Option String) (insertBefore : Bool) : List Task :=
  let collected := jsStableSort soLe (tasks.filter (bucketPred projectId task'.status_id))
  let targetTasks :=
    match collected.findIdx? (fun t => t.id = task'.id) with
    | some i => collected.eraseIdx i
    | none => collected
  let insertIndex :=
    match relativeToTaskId with
    | some rid =>
      match targetTasks.findIdx? (fun t => t.id = rid) with
      | some ri => if insertBefore then ri else ri + 1
      | none => targetTasks.length
    | none => targetTasks.length
  targetTasks.insertIdx insertIndex task'

/-- The `targetTasks.forEach((t, index) => { t.sort_order = index + 1 })`
reindex, applied through the shared task objects: every task whose id
occurs in the reordered bucket receives its bucket index + 1. -/
def applyReindex (tasks reordered : List Task) : List Task :=
  tasks.map (fun t =>
    match reordered.findIdx? (fun r => r.id = t.id) with
    | some i => { t with sort_order := some (i + 1) }
    | none => t)

/-- `moveTask(taskId, groupId, groupType, relativeToTaskId, insertBefore)`
with `dragState.currentProjectSlug` as an explicit argument. -/
def moveTask (s : AppState) (now : Nat) (currentProjectSlug : String)
    (taskId groupId groupType : String) (relativeToTaskId : Option String)
    (insertBefore : Bool) : AppState :=
  match getTaskById s taskId with
  | none => s
  | some task =>
    match getProjectBySlug s currentProjectSlug with
    | none => s
    | some project =>
      let task' := (applyClassification task now groupId groupType).1
      let tasks1 := replaceFirstTask s.tasks taskId task'
      let reordered := computeReordered tasks1 project.id task' relativeToTaskId insertBefore
      { s with tasks := applyReindex tasks1 reordered }

/-! ## Workflow status deletion (`deleteWorkflowStatus`, app.js 4946–4988) -/

/-- `deleteWorkflowStatus(statusId, projectSlug)`; the operator's answer
to the browser `confirm(...)` is the `confirmed` parameter. -/
def deleteWorkflowStatus (s : AppState) (slug statusId : String)
    (confirmed : Bool) : AppState :=
  match getProjectBySlug s slug with
  | none => s
  | some project =>
    let statuses := getStatusesForProject s project.id
    if statuses.length ≤ 1 then s
    else
      let tasksWithStatus := s.tasks.filter (fun t => t.status_id = some statusId)
      if 0 < tasksWithStatus.length ∧ ¬confirmed then s
      else
        let tasks' :=
          if 0 < tasksWithStatus.length then
            match statuses.find? (fun st => st.id ≠ statusId) with
            | some firstStatus =>
              s.tasks.map (fun t =>
                if t.status_id = some statusId
                then { t with status_id := some firstStatus.id } else t)
            | none => s.tasks
          else s.tasks
        let statuses' :=
          match s.statuses.findIdx? (fun st => st.id = statusId) with
          | some i => s.statuses.eraseIdx i
          | none => s.statuses
        { s with tasks := tasks', statuses := statuses' }

/-! ## Field edits (`updateTaskField`, app.js 6324–6336)

The JS call writes `task[field] = value` for a dynamic field name; the
fields the app passes are enumerated and dispatched below. -/

inductive TaskFieldName
  | title | description | status_id | priority_id | assignee_id
  | start_date | due_date
deriving DecidableEq, Repr

/-- A value written through `updateTaskField`: a (nullable) string or a
(nullable) `YYYY-MM-DD` date string. -/
inductive FieldVal
  | str (v : Option String)
  | date (v : Option CivilDate)
deriving DecidableEq, Repr

def getTaskField (t : Task) : TaskFieldName → FieldVal
  | .title => .str (some t.title)
  | .description => .str t.description
  | .status_id => .str t.status_id
  | .priority_id => .str t.priority_id
  | .assignee_id => .str t.assignee_id
  | .start_date => .date t.start_date
  | .due_date => .date t.due_date

/-- `task[field] = value`; a type-mismatched write cannot occur in the
app and leaves the task unchanged. -/
def setTaskField (t : Task) : TaskFieldName → FieldVal → Task
  | .title, .str (some v) => { t with title := v }
  | .description, .str v => { t with description := v }
  | .status_id, .str v => { t with status_id := v }
  | .priority_id, .str v => { t with priority_id := v }
  | .assignee_id, .str v => { t with assignee_id := v }
  | .start_date, .date v => { t with start_date := v }
  | .due_date, .date v => { t with due_date := v }
  | _, _ => t

/-- `updateTaskField(taskId, field, value, projectSlug)`. -/
def updateTaskField (s : AppState) (now : Nat) (taskId : String)
    (field : TaskFieldName) (value : FieldVal) : AppState :=
  match getTaskById s taskId with
  | none => s
  | some task =>
    let oldValue := getTaskField task field
    if oldValue = value then s
    else
      let task' := { setTaskField task field value with updated_at := now }
      { s with tasks := replaceFirstTask s.tasks taskId task' }

/-! ## Gantt bar geometry and drag commit
(`getGanttBarStyle` 3749–3771, `initGanttBarDragResize` 2170–2288)

Pixel and percentage values are exact rationals; a calendar date inside a
JS `Date` is its day number (`daysFromCivil`). -/

/-- The `left%`/`width%` pair of the rendered bar style (the width is
already capped at `100 - left`). -/
structure BarGeom where
  leftPercent : ℚ
  widthPercent : ℚ
deriving DecidableEq, Repr

/-- `getGanttBarStyle(task, timelineStart, totalDays, color)`, color
dropped. `null` when the task has neither date. -/
def getGanttBarStyle (task : Task) (timelineStart totalDays : Int) :
    Option BarGeom :=
  if task.start_date.isNone ∧ task.due_date.isNone then none
  else
    let startDate := daysFromCivil (task.start_date.getD (task.due_date.getD ⟨1970, 1, 1⟩))
    let endDate := daysFromCivil (task.due_date.getD (task.start_date.getD ⟨1970, 1, 1⟩))
    let actualStart := if startDate < endDate then startDate else endDate
    let actualEnd0 := if startDate < endDate then endDate else startDate
    let actualEnd := if actualStart = actualEnd0 then actualEnd0 + 7 else actualEnd0
    let startOffset : ℚ := max 0 ((actualStart - timelineStart : Int) : ℚ)
    let duration : ℚ := max 7 ((actualEnd - actualStart : Int) : ℚ)
    let leftPercent := startOffset / (totalDays : ℚ) * 100
    let widthPercent := duration / (totalDays : ℚ) * 100
    some ⟨leftPercent, min widthPercent (100 - leftPercent)⟩

/-- `pixelToDate(pixelX, containerWidth)` inside `initGanttBarDragResize`:
day offset `Math.round(pixelX / containerWidth × totalDays)` added to
`timelineStart`. -/
def pixelToDate (timelineStart totalDays : Int) (pixelX containerWidth : ℚ) : Int :=
  timelineStart + jsRound (pixelX / containerWidth * (totalDays : ℚ))

/-- The live width produced by a right-handle `mousemove` at horizontal
delta `deltaPercent`: floored at 2%, capped at `100 - initialLeft`. -/
def resizeRightWidth (initialLeft initialWidth deltaPercent : ℚ) : ℚ :=
  min (max 2 (initialWidth + deltaPercent)) (100 - initialLeft)

/-- The `mouseup` date computation: convert the final bar edges back to
pixels and then to calendar dates. -/
def ganttCommitDates (timelineStart totalDays : Int)
    (finalLeft finalWidth W : ℚ) : CivilDate × CivilDate :=
  let startPixel := finalLeft / 100 * W
  let endPixel := (finalLeft + finalWidth) / 100 * W
  (civilFromDays (pixelToDate timelineStart totalDays startPixel W),
   civilFromDays (pixelToDate timelineStart totalDays endPixel W))

/-- The whole `mouseup` handler: compute both dates and write them with
`updateTaskField`. -/
def ganttMouseUp (s : AppState) (now : Nat) (taskId : String)
    (timelineStart totalDays : Int) (finalLeft finalWidth W : ℚ) : AppState :=
  let dates := ganttCommitDates timelineStart totalDays finalLeft finalWidth W
  let s1 := updateTaskField s now taskId .start_date (.date (some dates.1))
  updateTaskField s1 now taskId .due_date (.date (some dates.2))

/-! # Concrete example data

Small states used by the claim theorems, their witnesses and their
counterexamples. -/

/-- A task literal with the fields the examples vary; remaining fields
are the neutral values a freshly loaded record would have. -/
def mkTask (id pid : String) (seq : Nat) (title : String)
    (st pr asg : Option String) (so : Option Nat) (arch : Bool) : Task := {
  id := id, project_id := pid, sequence_id := seq, title := title,
  description := none, key := none, status_id := st, priority_id := pr,
  assignee_id := asg, due_date := none, start_date := none, label_ids := [],
  sort_order := so, is_archived := arch, created_at := 0, updated_at := 0 }

/-- A workspace with one project `p1` (identifier `TC`, slug `proj`) and
empty view state. -/
def baseState : AppState := {
  tasks := [], statuses := [], users := [], priorities := [], labels := [],
  projects := [⟨"p1", "TC", "proj", "Proj"⟩],
  showArchivedTasks := fun _ => none, taskSearch := fun _ => none,
  assignedToMe := fun _ => none, assigneeFilter := fun _ => none,
  projectSort := fun _ => none }

/-- Day number of 2025-01-01 (= `new Date('2025-01-01')` at UTC midnight). -/
def day20250101 : Int := daysFromCivil ⟨2025, 1, 1⟩

/-- The roadmap task of the C9 scenario: `start_date = 2025-01-01`,
`due_date = 2025-01-08`. -/
def ganttTask : Task := { mkTask "t1" "p1" 1 "Bar" (some "s1") none none (some 1) false with
  start_date := some ⟨2025, 1, 1⟩, due_date := some ⟨2025, 1, 8⟩ }

def ganttState : AppState := { baseState with tasks := [ganttTask] }

/-! # Claim theorems -/

/-- `jsRound` is `⌊· + 1/2⌋`, i.e. JS `Math.round`. -/
theorem jsRound_eq_floor (q : ℚ) : jsRound q = ⌊q + 1 / 2⌋ := by
  have hden : ((q.den : ℚ)) ≠ 0 := by
    exact_mod_cast q.den_nz
  have hB : ((2 * q.den : ℕ) : ℚ) ≠ 0 := by
    push_cast
    positivity
  have hqd : q * (q.den : ℚ) = (q.num : ℚ) := Rat.mul_den_eq_num q
  have h : q + 1 / 2 =
      ((2 * q.num + (q.den : Int) : Int) : ℚ) / ((2 * q.den : ℕ) : ℚ) := by
    rw [eq_div_iff hB]
    push_cast
    calc (q + 1 / 2) * (2 * (q.den : ℚ))
        = 2 * (q * (q.den : ℚ)) + (q.den : ℚ) := by ring
      _ = 2 * (q.num : ℚ) + (q.den : ℚ) := by rw [hqd]
  rw [h, Rat.floor_intCast_div_natCast, jsRound]
  push_cast
  rfl

/-- The two date conversions the C9 drag commit needs, evaluated with the
track width still symbolic: with a nonzero container width the pixel
round trip collapses to `percentage / 100 × totalDays`. -/
theorem ganttCommitDates_eval (W : ℚ) (hW : W ≠ 0) :
    ganttCommitDates day20250101 31 0 (1400 / 31) W =
      (⟨2025, 1, 1⟩, ⟨2025, 1, 15⟩) := by
  have h0 : (0 : ℚ) / 100 * W / W * (31 : ℚ) = 0 := by
    field_simp
  have h14 : ((0 : ℚ) + 1400 / 31) / 100 * W / W * (31 : ℚ) = 14 := by
    field_simp
    ring
  simp only [ganttCommitDates, pixelToDate, Int.cast_ofNat, jsRound, h0, h14]
  norm_num
  constructor
  · show civilFromDays (day20250101 + 0) = _
    decide
  · show civilFromDays (day20250101 + 14) = _
    decide

/-- C9: with `start_date = 2025-01-01`, `due_date = 2025-01-08` on a
month-scale timeline starting 2025-01-01 with 31 days, the bar renders at
`left = 0%`, `width = 700/31 % ≈ 22.6%`; a right-handle resize by one bar
width lands at `1400/31 % ≈ 45.2%`, and releasing there converts the bar
edges back to dates and persists `due_date = 2025-01-15` while keeping
`start_date = 2025-01-01`. -/
theorem gantt_render_drag_commit_round_trip (W : ℚ) (hW : 0 < W) :
    getGanttBarStyle ganttTask day20250101 31 = some ⟨0, 700 / 31⟩ ∧
    resizeRightWidth 0 (700 / 31) (700 / 31) = 1400 / 31 ∧
    (getTaskById (ganttMouseUp ganttState 5 "t1" day20250101 31 0 (1400 / 31) W)
        "t1").map Task.due_date = some (some ⟨2025, 1, 15⟩) ∧
    (getTaskById (ganttMouseUp ganttState 5 "t1" day20250101 31 0 (1400 / 31) W)
        "t1").map Task.start_date = some (some ⟨2025, 1, 1⟩) := by
  have hC := ganttCommitDates_eval W (ne_of_gt hW)
  have hgeom : getGanttBarStyle ganttTask day20250101 31 = some ⟨0, 700 / 31⟩ := by
    have h1 : daysFromCivil ⟨2025, 1, 1⟩ = 20089 := by decide
    have h8 : daysFromCivil ⟨2025, 1, 8⟩ = 20096 := by decide
    have hd : day20250101 = 20089 := by decide
    simp only [getGanttBarStyle, ganttTask, mkTask, hd, Option.getD_some,
      Option.isNone_some]
    rw [h1, h8]
    norm_num
  refine ⟨hgeom, by norm_num [resizeRightWidth], ?_, ?_⟩
  · simp only [ganttMouseUp, hC]
    decide
  · simp only [ganttMouseUp, hC]
    decide

/-- Witness for `gantt_render_drag_commit_round_trip` at track width 800. -/
theorem gantt_render_drag_commit_round_trip_witness :
    (0 : ℚ) < 800 ∧
    ((getGanttBarStyle ganttTask day20250101 31 = some ⟨0, 700 / 31⟩ ∧
      resizeRightWidth 0 (700 / 31) (700 / 31) = 1400 / 31 ∧
      (getTaskById (ganttMouseUp ganttState 5 "t1" day20250101 31 0 (1400 / 31) 800)
          "t1").map Task.due_date = some (some ⟨2025, 1, 15⟩) ∧
      (getTaskById (ganttMouseUp ganttState 5 "t1" day20250101 31 0 (1400 / 31) 800)
          "t1").map Task.start_date = some (some ⟨2025, 1, 1⟩))) :=
  ⟨by norm_num, gantt_render_drag_commit_round_trip 800 (by norm_num)⟩

/-! ## C2: sequence-id assignment -/

/-- C2 failing input: project `p1` whose only task is archived and holds
`sequence_id = 1`; show-archived is off (default view state). -/
def seqReuseState : AppState := { baseState with
  tasks := [mkTask "t1" "p1" 1 "Old" (some "s1") none none (some 1) true],
  statuses := [⟨"s1", "p1", "Todo", "gray", "todo", 1⟩] }

/-- C2 (failing-input evaluation): both creation paths compute the
maximum `sequence_id` over `getTasksForProject`'s *filtered* list, which
omits the archived task, so the new task is assigned `sequence_id = 1` —
the very id the archived task already holds — instead of `2` as the
claim (and `DATA-MODEL.md`'s \x22auto-increment per project\x22) requires. -/
theorem creation_reuses_sequence_id_of_archived_task :
    ((handleQuickAddTask seqReuseState 100 "t-new" "New" "s1" "status" "proj").tasks.map
      (fun t => (t.id, t.sequence_id))) = [("t1", 1), ("t-new", 1)] ∧
    ((handleCreateTask seqReuseState 100 "t-new" "proj"
        ⟨"New", "", some "s1", none, none, none⟩).tasks.map
      (fun t => (t.id, t.sequence_id))) = [("t1", 1), ("t-new", 1)] := by
  constructor
  · decide
  · decide

/-! ## C8: project progress -/

/-- The progress the C8 claim describes (spec wording): done count over
ALL non-archived tasks of the project, independent of search text,
assignee filters and the show-archived setting. -/
def claimedProgress (s : AppState) (projectId : String) : Progress :=
  let tasks := s.tasks.filter (fun t => t.project_id = projectId && !t.is_archived)
  if tasks.length = 0 then ⟨0, 0, 0⟩
  else
    let doneStatusIds := ((getStatusesForProject s projectId).filter
      (fun st => st.category = "done")).map Status.id
    let doneTasks := tasks.filter (fun t =>
      match t.status_id with
      | some sid => doneStatusIds.contains sid
      | none => false)
    ⟨doneTasks.length, tasks.length,
      jsRound ((doneTasks.length : ℚ) / (tasks.length : ℚ) * 100)⟩

/-- C8 counterexample state: a done task titled `alpha` and a todo task
titled `beta`, with active search text `alpha`. -/
def progressSearchState : AppState := { baseState with
  tasks := [mkTask "a" "p1" 1 "alpha" (some "s2") none none (some 1) false,
            mkTask "b" "p1" 2 "beta" (some "s1") none none (some 1) false],
  statuses := [⟨"s1", "p1", "Todo", "gray", "todo", 1⟩,
               ⟨"s2", "p1", "Done", "green", "done", 2⟩],
  taskSearch := fun pid => if pid = "p1" then some "alpha" else none }

/-- C8 counterexample: with search text `alpha` active,
`calculateProjectProgress` reports 1/1 = 100% although the claim demands
1/2 = 50% over all non-archived tasks regardless of the search text —
the computation is not independent of the active filters. -/
theorem progress_depends_on_search_filter :
    calculateProjectProgress progressSearchState "p1" = ⟨1, 1, 100⟩ ∧
    claimedProgress progressSearchState "p1" = ⟨1, 2, 50⟩ := by
  have h1 : getTasksForProject progressSearchState "p1" =
      [mkTask "a" "p1" 1 "alpha" (some "s2") none none (some 1) false] := by
    decide
  constructor
  · simp only [calculateProjectProgress, h1]
    norm_num
    constructor
    · decide
    · have hd : (List.filter
          (fun t =>
            match t.status_id with
            | some sid =>
              decide
                (sid ∈
                  List.map Status.id
                    (List.filter (fun st => decide (st.category = "done"))
                      (getStatusesForProject progressSearchState "p1")))
            | none => false)
          [mkTask "a" "p1" 1 "alpha" (some "s2") none none (some 1) false]).length = 1 := by
        decide
      rw [hd, jsRound_eq_floor]
      norm_num
  · simp only [claimedProgress]
    rw [if_neg (by decide)]
    have h2 : (List.filter (fun t => decide (t.project_id = "p1") && !t.is_archived)
        progressSearchState.tasks).length = 2 := by decide
    have h3 : (List.filter (fun t =>
        match t.status_id with
        | some sid => List.contains (List.map Status.id (List.filter
            (fun st => decide (st.category = "done"))
            (getStatusesForProject progressSearchState "p1"))) sid
        | none => false)
        (List.filter (fun t => decide (t.project_id = "p1") && !t.is_archived)
          progressSearchState.tasks)).length = 1 := by decide
    rw [h2, h3, jsRound_eq_floor]
    norm_num

/-- C8 (amended): `calculateProjectProgress` applies the rounded-percent
formula to the **filtered** task list (`getTasksForProject` with the
current view state); when no search text, assignee filter, assigned-to-me
flag or show-archived setting is active for the project, it coincides
with the claim's formula over all non-archived tasks of the project, with
0% for an empty list. -/
theorem progress_formula_with_trivial_filters (s : AppState) (pid : String)
    (hsearch : (s.taskSearch pid).getD "" = "")
    (hassignee : (s.assigneeFilter pid).getD [] = [])
    (hme : (s.assignedToMe pid).getD false = false)
    (harch : (s.showArchivedTasks pid).getD false = false) :
    calculateProjectProgress s pid = claimedProgress s pid := by
  have hq : jsTrim (jsToLower ((s.taskSearch pid).getD "")) = "" := by
    rw [hsearch]
    rfl
  have hfilter : getTasksForProject s pid =
      s.tasks.filter (fun t => t.project_id = pid && !t.is_archived) := by
    unfold getTasksForProject
    simp only [Option.getD_none, hq, harch, hme]
    refine List.filter_congr ?_
    intro t _
    by_cases hp : t.project_id = pid <;> by_cases ha : t.is_archived <;>
      simp [taskPassesFilters, hassignee, hp, ha]
  unfold calculateProjectProgress claimedProgress
  rw [hfilter]

/-- Witness for `progress_formula_with_trivial_filters` on the base
state. -/
theorem progress_formula_with_trivial_filters_witness :
    ((baseState.taskSearch "p1").getD "" = "" ∧
     (baseState.assigneeFilter "p1").getD [] = [] ∧
     (baseState.assignedToMe "p1").getD false = false ∧
     (baseState.showArchivedTasks "p1").getD false = false) ∧
    calculateProjectProgress baseState "p1" = claimedProgress baseState "p1" :=
  ⟨⟨rfl, rfl, rfl, rfl⟩,
   progress_formula_with_trivial_filters baseState "p1" rfl rfl rfl rfl⟩

/-! ## C5: filter composition -/

/-- Independent archived-visibility filter (spec wording). -/
def filterByArchived (showArchived : Bool) (t : Task) : Bool :=
  showArchived || !t.is_archived

/-- Independent "assigned to me" filter: restricts to the current user's
tasks, and is inert when there is no current user (as in the code). -/
def filterByAssignedToMe (currentUser : Option User) (flag : Bool) (t : Task) : Bool :=
  !flag ||
    (match currentUser with
     | none => true
     | some u => t.assignee_id = some u.id)

/-- Independent assignee multi-select filter: an empty selection applies
no filter; the sentinel `unassigned` matches the tasks with no assignee. -/
def filterByAssignees (sel : List String) (t : Task) : Bool :=
  sel.isEmpty ||
    (match t.assignee_id with
     | some a => sel.contains a
     | none => sel.contains "unassigned")

/-- Independent free-text search filter over title, description, stored
key, assignee name and label names (all lowercased, substring match);
passes everything when the query is empty. -/
def filterBySearch (s : AppState) (q : String) (t : Task) : Bool :=
  q = "" ||
    (jsIncludes (jsToLower t.title) q ||
     (t.description.map (fun d => jsIncludes (jsToLower d) q)).getD false ||
     (t.key.map (fun k => jsIncludes (jsToLower k) q)).getD false ||
     ((t.assignee_id.bind (getUserById s)).map
        (fun u => jsIncludes (jsToLower u.name) q)).getD false ||
     (t.label_ids.map (fun id => (getLabelById s id).map (fun l => jsToLower l.name))).any
       (fun n => (n.map (fun nm => jsIncludes nm q)).getD false))

/-- `decide` of a symmetric equality, for boolean rewriting. -/
theorem decide_eq_symm {α : Type} [DecidableEq α] (a b : α) :
    decide (a = b) = decide (b = a) := by
  by_cases h : a = b <;> simp [h, Ne.symm, eq_comm]

set_option maxRecDepth 4096 in
set_option maxHeartbeats 1600000 in
/-- Pointwise form of the C5 decomposition: the one filter predicate of
`getTasksForProject` equals the conjunction of the independent filters. -/
theorem taskPassesFilters_eq_and (s : AppState) (pid : String) (sa me : Bool)
    (q : String) (t : Task) :
    taskPassesFilters s pid sa q me t =
      (decide (t.project_id = pid) && filterByArchived sa t &&
       filterByAssignedToMe (getCurrentUser s) me t &&
       filterByAssignees ((s.assigneeFilter pid).getD []) t &&
       filterBySearch s q t) := by
  unfold taskPassesFilters filterByArchived filterByAssignedToMe
    filterByAssignees filterBySearch
  by_cases hp : t.project_id = pid
  · by_cases hq : q = "" <;>
      by_cases hmeq : (getCurrentUser s).map User.id = t.assignee_id <;>
      cases ha : t.is_archived <;> cases sa <;> cases me <;>
      cases hcu : getCurrentUser s <;>
      cases hsel : (s.assigneeFilter pid).getD [] <;>
      cases hA : t.assignee_id <;>
      simp_all [Bool.and_assoc, decide_eq_symm] <;>
      first
      | exact eq_comm
      | exact fun h => absurd h.symm hmeq
  · simp [hp]

/-- C5: `getTasksForProject` equals the intersection (AND) of the
independent filters — archived visibility, assigned-to-me, assignee
multi-select and search — applied to the project's tasks; moreover the
`unassigned` sentinel matches exactly the null-assignee tasks and an
empty assignee selection applies no filter. -/
theorem filter_pipeline_is_intersection (s : AppState) (pid : String) :
    (getTasksForProject s pid =
      s.tasks.filter (fun t =>
        decide (t.project_id = pid) &&
        filterByArchived ((s.showArchivedTasks pid).getD false) t &&
        filterByAssignedToMe (getCurrentUser s) ((s.assignedToMe pid).getD false) t &&
        filterByAssignees ((s.assigneeFilter pid).getD []) t &&
        filterBySearch s (jsTrim (jsToLower ((s.taskSearch pid).getD ""))) t)) ∧
    (∀ sel (t : Task), "unassigned" ∈ sel → t.assignee_id = none →
      filterByAssignees sel t = true) ∧
    (∀ sel (t : Task) (a : String), t.assignee_id = some a → sel ≠ [] →
      (filterByAssignees sel t = true ↔ a ∈ sel)) ∧
    (∀ t : Task, filterByAssignees [] t = true) := by
  refine ⟨?_, ?_, ?_, ?_⟩
  · unfold getTasksForProject
    simp only [Option.getD_none]
    exact List.filter_congr (fun t _ => taskPassesFilters_eq_and s pid _ _ _ t)
  · intro sel t hmem hA
    cases sel with
    | nil => cases hmem
    | cons x xs => simp_all [filterByAssignees]
  · intro sel t a hA hne
    cases sel with
    | nil => exact absurd rfl hne
    | cons x xs => simp [filterByAssignees, hA]
  · intro t
    simp [filterByAssignees]

/-- Witness for `filter_pipeline_is_intersection`: the sentinel and
empty-selection conjuncts applied at concrete inputs. -/
theorem filter_pipeline_is_intersection_witness :
    filterByAssignees ["unassigned"]
      (mkTask "x" "p1" 1 "T" (some "s1") none none none false) = true ∧
    (filterByAssignees ["u1"]
      (mkTask "x" "p1" 1 "T" (some "s1") none (some "u1") none false) = true ↔
        "u1" ∈ ["u1"]) ∧
    filterByAssignees []
      (mkTask "x" "p1" 1 "T" (some "s1") none (some "u2") none false) = true :=
  ⟨(filter_pipeline_is_intersection baseState "p1").2.1 ["unassigned"] _
      (by decide) rfl,
   (filter_pipeline_is_intersection baseState "p1").2.2.1 ["u1"] _ "u1" rfl
      (by decide),
   (filter_pipeline_is_intersection baseState "p1").2.2.2 _⟩

/-! ## C6: search fields -/

/-- The search predicate the C6 claim describes: identical to the code's
search stage except that the key is DERIVED as
`project.identifier ++ "-" ++ sequence_id` (the way `renderBoardCard` and
`renderTaskRow` derive the displayed key), instead of the stored `key`
field the code actually searches. -/
def claimedSearchMatches (s : AppState) (project : Project) (q : String)
    (t : Task) : Bool :=
  q = "" ||
    (jsIncludes (jsToLower t.title) q ||
     (t.description.map (fun d => jsIncludes (jsToLower d) q)).getD false ||
     jsIncludes (jsToLower (project.identifier ++ "-" ++ toString t.sequence_id)) q ||
     ((t.assignee_id.bind (getUserById s)).map
        (fun u => jsIncludes (jsToLower u.name) q)).getD false ||
     (t.label_ids.map (fun id => (getLabelById s id).map (fun l => jsToLower l.name))).any
       (fun n => (n.map (fun nm => jsIncludes nm q)).getD false))

/-- C6 counterexample state: project identifier `TC`, one task with
`sequence_id = 1` (derived key `TC-1`) and no stored `key` field, search
text `tc-1`. -/
def keySearchState : AppState := { baseState with
  tasks := [mkTask "a" "p1" 1 "hello" (some "s1") none none (some 1) false],
  statuses := [⟨"s1", "p1", "Todo", "gray", "todo", 1⟩],
  taskSearch := fun pid => if pid = "p1" then some "tc-1" else none }

/-- C6 counterexample: searching for the derived key `tc-1` excludes the
task (the code matches the stored `key` field, which the task lacks),
although the claim says a task whose derived key contains the search text
is included; every other filter stage passes the task. -/
theorem search_misses_derived_key :
    getTasksForProject keySearchState "p1" = [] ∧
    claimedSearchMatches keySearchState ⟨"p1", "TC", "proj", "Proj"⟩ "tc-1"
      (mkTask "a" "p1" 1 "hello" (some "s1") none none (some 1) false) = true ∧
    taskPassesFilters keySearchState "p1" false "" false
      (mkTask "a" "p1" 1 "hello" (some "s1") none none (some 1) false) = true := by
  refine ⟨by decide, by decide, by decide⟩

/-- `(o.map h).getD false` is `true` exactly when `o` holds a value
satisfying `h`. -/
theorem optMap_getD_true {α : Type} (o : Option α) (h : α → Bool) :
    ((o.map h).getD false) = true ↔ ∃ x, o = some x ∧ h x = true := by
  cases o <;> simp

/-- The code's search stage, as a proposition: a task passes iff the
query is empty or it matches the title, the description, the STORED
`key` field, the assignee's name, or an attached label's name. -/
theorem filterBySearch_iff (s : AppState) (q : String) (t : Task) :
    filterBySearch s q t = true ↔
      (q = "" ∨ jsIncludes (jsToLower t.title) q = true ∨
       (∃ d, t.description = some d ∧ jsIncludes (jsToLower d) q = true) ∨
       (∃ k, t.key = some k ∧ jsIncludes (jsToLower k) q = true) ∨
       (∃ a u, t.assignee_id = some a ∧ getUserById s a = some u ∧
         jsIncludes (jsToLower u.name) q = true) ∨
       (∃ lid l, lid ∈ t.label_ids ∧ getLabelById s lid = some l ∧
         jsIncludes (jsToLower l.name) q = true)) := by
  unfold filterBySearch
  by_cases hq0 : q = ""
  · simp [hq0]
  · cases hA : t.assignee_id <;>
      simp [hq0, hA, optMap_getD_true, List.any_eq_true,
        exists_exists_and_eq_and] <;>
      aesop

/-- C6 (amended): with the project's search text `q` active, a task of
the state is in `getTasksForProject`'s output iff it passes the
project/archived/assigned-to-me/assignee stages and `q` is empty or
matches (case-insensitively, as a substring) the title, the description,
the STORED `key` field, the assignee's display name, or an attached
label's name — the key searched is the stored field, not the
identifier-derived display key. -/
theorem search_stage_matches_stored_key (s : AppState) (pid : String)
    (q : String) (t : Task) (ht : t ∈ s.tasks)
    (hq : q = jsTrim (jsToLower ((s.taskSearch pid).getD ""))) :
    t ∈ getTasksForProject s pid ↔
      ((decide (t.project_id = pid) &&
        filterByArchived ((s.showArchivedTasks pid).getD false) t &&
        filterByAssignedToMe (getCurrentUser s) ((s.assignedToMe pid).getD false) t &&
        filterByAssignees ((s.assigneeFilter pid).getD []) t) = true ∧
       (q = "" ∨ jsIncludes (jsToLower t.title) q = true ∨
        (∃ d, t.description = some d ∧ jsIncludes (jsToLower d) q = true) ∨
        (∃ k, t.key = some k ∧ jsIncludes (jsToLower k) q = true) ∨
        (∃ a u, t.assignee_id = some a ∧ getUserById s a = some u ∧
          jsIncludes (jsToLower u.name) q = true) ∨
        (∃ lid l, lid ∈ t.label_ids ∧ getLabelById s lid = some l ∧
          jsIncludes (jsToLower l.name) q = true))) := by
  subst hq
  unfold getTasksForProject
  simp only [Option.getD_none, List.mem_filter, ht, true_and,
    taskPassesFilters_eq_and, Bool.and_eq_true, filterBySearch_iff]

/-- Witness for `search_stage_matches_stored_key` on the C6
counterexample state. -/
theorem search_stage_matches_stored_key_witness :
    (mkTask "a" "p1" 1 "hello" (some "s1") none none (some 1) false) ∈
      keySearchState.tasks ∧
    "tc-1" = jsTrim (jsToLower ((keySearchState.taskSearch "p1").getD "")) ∧
    ((mkTask "a" "p1" 1 "hello" (some "s1") none none (some 1) false) ∈
        getTasksForProject keySearchState "p1" ↔
      ((decide ((mkTask "a" "p1" 1 "hello" (some "s1") none none (some 1) false).project_id = "p1") &&
        filterByArchived ((keySearchState.showArchivedTasks "p1").getD false)
          (mkTask "a" "p1" 1 "hello" (some "s1") none none (some 1) false) &&
        filterByAssignedToMe (getCurrentUser keySearchState)
          ((keySearchState.assignedToMe "p1").getD false)
          (mkTask "a" "p1" 1 "hello" (some "s1") none none (some 1) false) &&
        filterByAssignees ((keySearchState.assigneeFilter "p1").getD [])
          (mkTask "a" "p1" 1 "hello" (some "s1") none none (some 1) false)) = true ∧
       ("tc-1" = "" ∨
        jsIncludes (jsToLower (mkTask "a" "p1" 1 "hello" (some "s1") none none
          (some 1) false).title) "tc-1" = true ∨
        (∃ d, (mkTask "a" "p1" 1 "hello" (some "s1") none none (some 1) false).description =
          some d ∧ jsIncludes (jsToLower d) "tc-1" = true) ∨
        (∃ k, (mkTask "a" "p1" 1 "hello" (some "s1") none none (some 1) false).key =
          some k ∧ jsIncludes (jsToLower k) "tc-1" = true) ∨
        (∃ a u, (mkTask "a" "p1" 1 "hello" (some "s1") none none (some 1) false).assignee_id =
          some a ∧ getUserById keySearchState a = some u ∧
          jsIncludes (jsToLower u.name) "tc-1" = true) ∨
        (∃ lid l, lid ∈ (mkTask "a" "p1" 1 "hello" (some "s1") none none
          (some 1) false).label_ids ∧ getLabelById keySearchState lid = some l ∧
          jsIncludes (jsToLower l.name) "tc-1" = true)))) :=
  ⟨by decide, by decide,
   search_stage_matches_stored_key keySearchState "p1" "tc-1" _ (by decide) (by decide)⟩

/-! ## C3: sort dropdown and list ordering -/

/-- JS `<=` on strings: lexicographic by UTF-16 code unit (code point
for the BMP examples used here), written to be kernel-computable. -/
def jsStrLtChars : List Char → List Char → Bool
  | [], [] => false
  | [], _ :: _ => true
  | _ :: _, [] => false
  | a :: as, b :: bs =>
    if a.toNat < b.toNat then true
    else if b.toNat < a.toNat then false
    else jsStrLtChars as bs

def jsStrLe (a b : String) : Bool := !(jsStrLtChars b.toList a.toList)

/-- Tasks of the C3 counterexample, in stored (state) order: the later
task's title precedes the earlier one lexicographically. -/
def sortDemoTasks : List Task :=
  [mkTask "b" "p1" 2 "bbb" (some "s1") none none (some 1) false,
   mkTask "a" "p1" 1 "aaa" (some "s1") none none (some 2) false]

/-- C3 counterexample state: sort setting `{title, asc}` active. -/
def sortDemoState : AppState := { baseState with
  tasks := sortDemoTasks,
  statuses := [⟨"s1", "p1", "Todo", "gray", "todo", 1⟩],
  projectSort := fun pid => if pid = "p1" then
    some ⟨SortField.title, SortDirection.asc⟩ else none }

/-- C3 counterexample: with sort `{title, asc}` active, the list view
(`getGroupsForTasks` + per-group rendering) emits the tasks in stored
order `[bbb, aaa]`, not in the claimed title-ascending order
`[aaa, bbb]` — no render path applies the sort setting. (Additionally,
re-selecting the already-active `manual` field resets to ascending rather
than flipping, see `sort_dropdown_flip_and_unsorted_render`.) -/
theorem list_view_ignores_sort_setting :
    getProjectSort sortDemoState "p1" = ⟨SortField.title, SortDirection.asc⟩ ∧
    renderedGroupTasks (getGroupsForTasks sortDemoState sortDemoTasks
      ⟨"p1", "TC", "proj", "Proj"⟩ "none") = [sortDemoTasks] ∧
    jsStableSort (fun a b => jsStrLe a.title b.title) sortDemoTasks =
      [mkTask "a" "p1" 1 "aaa" (some "s1") none none (some 2) false,
       mkTask "b" "p1" 2 "bbb" (some "s1") none none (some 1) false] ∧
    sortDemoTasks ≠
      [mkTask "a" "p1" 1 "aaa" (some "s1") none none (some 2) false,
       mkTask "b" "p1" 2 "bbb" (some "s1") none none (some 1) false] := by
  refine ⟨by decide, by decide, by decide, by decide⟩

/-- C3 (amended): selecting an already-active non-`manual` field flips
the direction; selecting `manual` (even when active) or a different
field resets to ascending; and the list rendering never applies the sort
setting — `getGroupsForTasks` is independent of `state.projectSort`, and
in the ungrouped mode it emits the tasks in stored order. -/
theorem sort_dropdown_flip_and_unsorted_render :
    (∀ (cur : SortSetting) (field : SortField),
      field = cur.field → field ≠ SortField.manual →
      sortSelectTransition cur field =
        ⟨field, if cur.direction = SortDirection.asc then SortDirection.desc
                else SortDirection.asc⟩) ∧
    (∀ (cur : SortSetting) (field : SortField),
      field ≠ cur.field ∨ field = SortField.manual →
      sortSelectTransition cur field = ⟨field, SortDirection.asc⟩) ∧
    (∀ (s : AppState) (σ : String → Option SortSetting) (tasks : List Task)
      (project : Project) (g : String),
      getGroupsForTasks { s with projectSort := σ } tasks project g =
        getGroupsForTasks s tasks project g) ∧
    (∀ (s : AppState) (tasks : List Task) (project : Project),
      renderedGroupTasks (getGroupsForTasks s tasks project "none") = [tasks]) := by
  refine ⟨?_, ?_, ?_, ?_⟩
  · intro cur field h1 h2
    rw [h1] at h2
    simp [sortSelectTransition, h1, h2]
  · intro cur field h
    rcases h with h | h
    · simp [sortSelectTransition, h]
    · subst h
      simp [sortSelectTransition]
  · intro s σ tasks project g
    rfl
  · intro s tasks project
    rfl

/-- Witness for `sort_dropdown_flip_and_unsorted_render` at concrete
inputs. -/
theorem sort_dropdown_flip_and_unsorted_render_witness :
    sortSelectTransition ⟨SortField.title, SortDirection.asc⟩ SortField.title =
      ⟨SortField.title, SortDirection.desc⟩ ∧
    sortSelectTransition ⟨SortField.manual, SortDirection.asc⟩ SortField.manual =
      ⟨SortField.manual, SortDirection.asc⟩ ∧
    renderedGroupTasks (getGroupsForTasks baseState sortDemoTasks
      ⟨"p1", "TC", "proj", "Proj"⟩ "none") = [sortDemoTasks] :=
  ⟨sort_dropdown_flip_and_unsorted_render.1 ⟨SortField.title, SortDirection.asc⟩
      SortField.title rfl (by decide),
   sort_dropdown_flip_and_unsorted_render.2.1 ⟨SortField.manual, SortDirection.asc⟩
      SortField.manual (Or.inr rfl),
   sort_dropdown_flip_and_unsorted_render.2.2.2 baseState sortDemoTasks
      ⟨"p1", "TC", "proj", "Proj"⟩⟩

/-! ## C10: `updated_at` refresh discipline -/

/-- `applyClassification` never changes the task id. -/
theorem applyClassification_id (task : Task) (now : Nat) (gid gt : String) :
    ((applyClassification task now gid gt).1).id = task.id := by
  unfold applyClassification
  dsimp only
  split_ifs <;> rfl

/-- `setTaskField` never changes the task id. -/
theorem setTaskField_id (t : Task) (f : TaskFieldName) (v : FieldVal) :
    (setTaskField t f v).id = t.id := by
  cases f <;> cases v <;> rename_i o <;> cases o <;> rfl

/-- After replacing the first task with id `tid` by `t'` (itself carrying
id `tid`), looking the id up finds `t'`. -/
theorem find?_replaceFirstTask (l : List Task) (tid : String) (t' : Task)
    (h : t'.id = tid) (task : Task)
    (hfind : l.find? (fun t => t.id = tid) = some task) :
    (replaceFirstTask l tid t').find? (fun t => t.id = tid) = some t' := by
  induction l with
  | nil => cases hfind
  | cons t ts ih =>
    by_cases ht : t.id = tid
    · simp [replaceFirstTask, ht, List.find?, h]
    · simp only [replaceFirstTask, if_neg ht]
      rw [List.find?_cons_of_neg _ (by simpa using ht)] at hfind
      rw [List.find?_cons_of_neg _ (by simpa using ht)]
      exact ih hfind

/-- Replacing the first task with id `tid` does not disturb the sublist
of tasks with other ids. -/
theorem filter_ne_replaceFirstTask (l : List Task) (tid : String) (t' : Task)
    (h : t'.id = tid) :
    (replaceFirstTask l tid t').filter (fun t => t.id ≠ tid) =
      l.filter (fun t => t.id ≠ tid) := by
  induction l with
  | nil => rfl
  | cons t ts ih =>
    by_cases ht : t.id = tid
    · simp [replaceFirstTask, ht, List.filter, h]
    · simp only [replaceFirstTask, if_neg ht]
      simp only [List.filter_cons]
      simp_all

/-- The reindex writes only `sort_order`: ids and `updated_at` are
untouched. -/
theorem applyReindex_map_id_updated (tasks reordered : List Task) :
    (applyReindex tasks reordered).map (fun t => (t.id, t.updated_at)) =
      tasks.map (fun t => (t.id, t.updated_at)) := by
  unfold applyReindex
  rw [List.map_map]
  refine List.map_congr_left ?_
  intro t _
  cases hidx : reordered.findIdx? (fun r => r.id = t.id) <;> simp [hidx]

/-- Under the id-based filter excluding the dragged task, the reindex is
invisible to `(id, updated_at)` projections. -/
theorem applyReindex_filter_ne_map (tasks r : List Task) (tid : String) :
    ((applyReindex tasks r).filter (fun t => t.id ≠ tid)).map
        (fun t => (t.id, t.updated_at)) =
      (tasks.filter (fun t => t.id ≠ tid)).map (fun t => (t.id, t.updated_at)) := by
  unfold applyReindex
  rw [List.filter_map, List.map_map]
  have h1 : tasks.filter ((fun t => decide (t.id ≠ tid)) ∘ fun t =>
      (match r.findIdx? (fun x => x.id = t.id) with
       | some i => { t with sort_order := some (i + 1) }
       | none => t)) = tasks.filter (fun t => decide (t.id ≠ tid)) := by
    refine List.filter_congr ?_
    intro t _
    cases h : r.findIdx? (fun x => x.id = t.id) <;> simp [Function.comp, h]
  rw [h1]
  refine List.map_congr_left ?_
  intro t _
  cases h : r.findIdx? (fun x => x.id = t.id) <;> simp [Function.comp, h]

/-- C10 counterexample state: one task in status `s1`; deleting `s1`
(with operator confirmation) moves it to `s2`. -/
def delStatusState : AppState := { baseState with
  tasks := [mkTask "a" "p1" 1 "A" (some "s1") none none (some 1) false],
  statuses := [⟨"s1", "p1", "Todo", "gray", "todo", 1⟩,
               ⟨"s2", "p1", "Doing", "blue", "in_progress", 2⟩] }

/-- C10 counterexample: `deleteWorkflowStatus` reassigns the task's
`status_id` from `s1` to `s2` but leaves `updated_at` at its old value
`0` — a field mutation without the claimed `updated_at` refresh. -/
theorem delete_status_reassignment_skips_updated_at :
    (deleteWorkflowStatus delStatusState "proj" "s1" true).tasks.map
      (fun t => (t.id, t.status_id, t.updated_at)) = [("a", some "s2", 0)] ∧
    delStatusState.tasks.map (fun t => (t.id, t.status_id, t.updated_at)) =
      [("a", some "s1", 0)] := by
  refine ⟨by decide, by decide⟩

/-- C10 (amended): `updateTaskField` refreshes `updated_at` whenever the
written value differs, and a classification change inside `moveTask`
stamps the task with the current time; but the `sort_order` reindex in
`moveTask` leaves every other task's `updated_at` untouched, and
`deleteWorkflowStatus` reassigns `status_id` without refreshing
`updated_at` on any task. -/
theorem updated_at_refresh_discipline :
    (∀ (s : AppState) (now : Nat) (tid : String) (f : TaskFieldName)
       (v : FieldVal) (task : Task),
       getTaskById s tid = some task → getTaskField task f ≠ v →
       getTaskById (updateTaskField s now tid f v) tid =
         some { setTaskField task f v with updated_at := now }) ∧
    (∀ (task : Task) (now : Nat) (gid gt : String) (t' : Task),
       applyClassification task now gid gt = (t', true) → t'.updated_at = now) ∧
    (∀ (s : AppState) (slug statusId : String) (confirmed : Bool),
       (deleteWorkflowStatus s slug statusId confirmed).tasks.map
         (fun t => (t.id, t.updated_at)) =
       s.tasks.map (fun t => (t.id, t.updated_at))) ∧
    (∀ (s : AppState) (now : Nat) (slug tid gid gt : String)
       (rel : Option String) (ins : Bool),
       ((moveTask s now slug tid gid gt rel ins).tasks.filter
         (fun t => t.id ≠ tid)).map (fun t => (t.id, t.updated_at)) =
       (s.tasks.filter (fun t => t.id ≠ tid)).map
         (fun t => (t.id, t.updated_at))) := by
  refine ⟨?_, ?_, ?_, ?_⟩
  · intro s now tid f v task hfind hne
    unfold updateTaskField getTaskById at *
    rw [hfind]
    simp only [if_neg hne]
    have hid : ({ setTaskField task f v with updated_at := now } : Task).id = tid := by
      have h1 := setTaskField_id task f v
      have h2 : task.id = tid := by
        have := List.find?_some hfind
        simpa using this
      simp [h1, h2]
    exact find?_replaceFirstTask s.tasks tid _ hid task hfind
  · intro task now gid gt t' h
    unfold applyClassification at h
    dsimp only at h
    split_ifs at h <;> simp_all <;> rw [← h]
  · intro s slug statusId confirmed
    unfold deleteWorkflowStatus
    cases hproj : getProjectBySlug s slug with
    | none => rfl
    | some p =>
      dsimp only
      split
      · rfl
      · split
        · rfl
        · dsimp only
          split
          · cases hfs : (getStatusesForProject s p.id).find?
                (fun st => st.id ≠ statusId) with
            | none => simp [hfs]
            | some fs =>
              simp only [hfs, List.map_map]
              refine List.map_congr_left ?_
              intro t _
              by_cases hts : t.status_id = some statusId <;> simp [hts]
          · rfl
  · intro s now slug tid gid gt rel ins
    unfold moveTask
    cases hfind : getTaskById s tid with
    | none => rfl
    | some task =>
      cases hproj : getProjectBySlug s slug with
      | none => rfl
      | some p =>
        dsimp only
        have hid : ((applyClassification task now gid gt).1).id = tid := by
          rw [applyClassification_id]
          have := List.find?_some hfind
          simpa using this
        rw [applyReindex_filter_ne_map]
        rw [filter_ne_replaceFirstTask s.tasks tid _ hid]

/-- Witness for `updated_at_refresh_discipline`: a concrete differing
title write through `updateTaskField` stamps `updated_at`. -/
theorem updated_at_refresh_discipline_witness :
    getTaskById (updateTaskField delStatusState 7 "a" TaskFieldName.title
        (FieldVal.str (some "B"))) "a" =
      some { setTaskField (mkTask "a" "p1" 1 "A" (some "s1") none none (some 1) false)
          TaskFieldName.title (FieldVal.str (some "B")) with updated_at := 7 } :=
  updated_at_refresh_discipline.1 delStatusState 7 "a" TaskFieldName.title
    (FieldVal.str (some "B"))
    (mkTask "a" "p1" 1 "A" (some "s1") none none (some 1) false)
    (by decide) (by decide)

/-! ## C7: grouping partitions the task list -/

/-- The tasks the list view displays, over all groups in order
(`renderTaskListView` renders `tasksByGroup[group.id] || []` per group). -/
def bucketsOf (groups : List Group) (d : String → Option (List Task)) : List Task :=
  (groups.map (fun g => (d g.id).getD [])).flatten

theorem bucketsOf_eq_flatten (gd : List Group × (String → Option (List Task))) :
    (renderedGroupTasks gd).flatten = bucketsOf gd.1 gd.2 := rfl

theorem dictSet_same (d : String → Option (List Task)) (k : String) (v : List Task) :
    dictSet d k v k = some v := by simp [dictSet]

theorem dictSet_ne (d : String → Option (List Task)) (k : String) (v : List Task)
    (x : String) (h : x ≠ k) : dictSet d k v x = d x := by simp [dictSet, h]

theorem dictPush_same (d : String → Option (List Task)) (k : String) (t : Task) :
    dictPush d k t k = some ((d k).getD [] ++ [t]) := dictSet_same d k _

theorem dictPush_ne (d : String → Option (List Task)) (k : String) (t : Task)
    (x : String) (h : x ≠ k) : dictPush d k t x = d x := dictSet_ne d k _ x h

theorem dictPush_isSome (d : String → Option (List Task)) (k : String) (t : Task)
    (x : String) : (dictPush d k t x).isSome ↔ (x = k ∨ (d x).isSome) := by
  by_cases h : x = k
  · subst h
    simp [dictPush_same]
  · simp [dictPush_ne d k t x h, h]

/-- Pushing a task into one of the group buckets adds exactly that task,
up to permutation, to the rendered concatenation. -/
theorem bucketsOf_dictPush (groups : List Group) (d : String → Option (List Task))
    (k : String) (t : Task) (hnd : (groups.map Group.id).Nodup)
    (hk : k ∈ groups.map Group.id) :
    (bucketsOf groups (dictPush d k t)).Perm (t :: bucketsOf groups d) := by
  induction groups with
  | nil => simp at hk
  | cons g gs ih =>
    rw [List.map_cons, List.nodup_cons] at hnd
    by_cases hg : g.id = k
    · subst hg
      have htail : gs.map (fun g' => ((dictPush d g.id t) g'.id).getD []) =
          gs.map (fun g' => (d g'.id).getD []) := by
        refine List.map_congr_left ?_
        intro g' hg'
        rw [dictPush_ne]
        intro he
        exact hnd.1 (he ▸ List.mem_map_of_mem Group.id hg')
      simp only [bucketsOf, List.map_cons, List.flatten_cons, dictPush_same,
        Option.getD_some, htail]
      rw [List.append_assoc, List.singleton_append]
      exact List.perm_middle
    · have hk' : k ∈ gs.map Group.id := by
        rw [List.map_cons, List.mem_cons] at hk
        rcases hk with h | h
        · exact absurd h.symm hg
        · exact h
      have hhead : (dictPush d k t) g.id = d g.id := dictPush_ne d k t g.id hg
      simp only [bucketsOf, List.map_cons, List.flatten_cons, hhead]
      refine ((ih hnd.2 hk').append_left _).trans ?_
      exact List.perm_middle

/-- A dictionary built by writing `[]` under a fold keeps every read at
`[]`. -/
theorem getD_foldl_dictSet_nil {α : Type} (f : α → String) (l : List α)
    (d : String → Option (List Task)) (h : ∀ x, (d x).getD [] = [])
    (x : String) : ((l.foldl (fun d a => dictSet d (f a) []) d) x).getD [] = [] := by
  induction l generalizing d with
  | nil => exact h x
  | cons a l ih =>
    refine ih (dictSet d (f a) []) ?_
    intro y
    by_cases hy : y = f a
    · subst hy
      simp [dictSet_same]
    · rw [dictSet_ne d (f a) [] y hy]
      exact h y

/-- Domain of a dictionary built by a fold of `dictSet`s. -/
theorem isSome_foldl_dictSet {α : Type} (f : α → String) (l : List α)
    (d : String → Option (List Task)) (x : String) :
    ((l.foldl (fun d a => dictSet d (f a) []) d) x).isSome ↔
      (x ∈ l.map f ∨ (d x).isSome) := by
  induction l generalizing d with
  | nil => simp
  | cons a l ih =>
    rw [List.foldl_cons, ih]
    by_cases hy : x = f a
    · subst hy
      simp [dictSet_same]
    · rw [dictSet_ne d (f a) [] x hy]
      simp [hy]

/-- All group buckets start empty. -/
theorem bucketsOf_all_nil (groups : List Group) (d : String → Option (List Task))
    (h : ∀ x, (d x).getD [] = []) : bucketsOf groups d = [] := by
  induction groups with
  | nil => rfl
  | cons g gs ih =>
    simp only [bucketsOf, List.map_cons, List.flatten_cons, h g.id,
      List.nil_append]
    exact ih

/-- Status-mode fold: every task whose status key exists lands in exactly
one bucket; tasks with unknown or null status are dropped. -/
theorem foldl_statusStep_perm (groups : List Group) (keys : List String)
    (hgk : groups.map Group.id = keys) (hnd : keys.Nodup) :
    ∀ (ts : List Task) (d : String → Option (List Task)),
      (∀ x, (d x).isSome ↔ x ∈ keys) →
      (bucketsOf groups (ts.foldl statusStep d)).Perm
        ((ts.filter (fun t => match t.status_id with
            | some sid => decide (sid ∈ keys)
            | none => false)) ++ bucketsOf groups d) := by
  intro ts
  induction ts with
  | nil =>
    intro d _
    simp
  | cons t ts ih =>
    intro d hdom
    rw [List.foldl_cons]
    cases hA : t.status_id with
    | none =>
      have hstep : statusStep d t = d := by simp [statusStep, hA]
      rw [hstep, List.filter_cons]
      simp only [hA]
      exact ih d hdom
    | some sid =>
      by_cases hs : (d sid).isSome
      · have hks : sid ∈ keys := (hdom sid).1 hs
        have hstep : statusStep d t = dictPush d sid t := by
          simp [statusStep, hA, hs]
        have hdom' : ∀ x, ((dictPush d sid t) x).isSome ↔ x ∈ keys := by
          intro x
          rw [dictPush_isSome]
          constructor
          · rintro (rfl | h)
            · exact hks
            · exact (hdom x).1 h
          · intro h
            exact Or.inr ((hdom x).2 h)
        rw [hstep, List.filter_cons]
        simp only [hA]
        rw [if_pos (by simpa using hks)]
        refine (ih _ hdom').trans ?_
        have h2 := bucketsOf_dictPush groups d sid t (hgk ▸ hnd) (hgk ▸ hks)
        exact (List.Perm.append_left _ h2).trans List.perm_middle
      · have hstep : statusStep d t = d := by simp [statusStep, hA, hs]
        have hks : sid ∉ keys := fun h => hs ((hdom sid).2 h)
        rw [hstep, List.filter_cons]
        simp only [hA]
        rw [if_neg (by simpa using hks)]
        exact ih d hdom

/-- Priority-mode fold: every task lands in exactly one bucket, thanks to
the `priority-none` fallback. -/
theorem foldl_priorityStep_perm (groups : List Group) (keys : List String)
    (hgk : groups.map Group.id = keys) (hnd : keys.Nodup)
    (hnone : "priority-none" ∈ keys) :
    ∀ (ts : List Task) (d : String → Option (List Task)),
      (∀ x, (d x).isSome ↔ x ∈ keys) →
      (bucketsOf groups (ts.foldl priorityStep d)).Perm (ts ++ bucketsOf groups d) := by
  intro ts
  induction ts with
  | nil =>
    intro d _
    simp
  | cons t ts ih =>
    intro d hdom
    rw [List.foldl_cons]
    have hmain : ∃ k, k ∈ keys ∧ priorityStep d t = dictPush d k t := by
      unfold priorityStep
      by_cases hs : (d (t.priority_id.getD "priority-none")).isSome
      · exact ⟨_, (hdom _).1 hs, by simp [hs]⟩
      · exact ⟨"priority-none", hnone, by simp [hs]⟩
    obtain ⟨k, hk, hstep⟩ := hmain
    have hdom' : ∀ x, ((dictPush d k t) x).isSome ↔ x ∈ keys := by
      intro x
      rw [dictPush_isSome]
      constructor
      · rintro (rfl | h)
        · exact hk
        · exact (hdom x).1 h
      · intro h
        exact Or.inr ((hdom x).2 h)
    rw [hstep, List.cons_append]
    refine (ih _ hdom').trans ?_
    have h2 := bucketsOf_dictPush groups d k t (hgk ▸ hnd) (hgk ▸ hk)
    exact (List.Perm.append_left _ h2).trans List.perm_middle

/-- Assignee-mode fold: every task lands in exactly one bucket, thanks to
the `unassigned` fallback. -/
theorem foldl_assigneeStep_perm (groups : List Group) (keys : List String)
    (hgk : groups.map Group.id = keys) (hnd : keys.Nodup)
    (hun : "unassigned" ∈ keys) :
    ∀ (ts : List Task) (d : String → Option (List Task)),
      (∀ x, (d x).isSome ↔ x ∈ keys) →
      (bucketsOf groups (ts.foldl assigneeStep d)).Perm (ts ++ bucketsOf groups d) := by
  intro ts
  induction ts with
  | nil =>
    intro d _
    simp
  | cons t ts ih =>
    intro d hdom
    rw [List.foldl_cons]
    have hmain : ∃ k, k ∈ keys ∧ assigneeStep d t = dictPush d k t := by
      unfold assigneeStep
      cases hA : t.assignee_id with
      | none => exact ⟨"unassigned", hun, rfl⟩
      | some aid =>
        by_cases hs : (d ("assignee-" ++ aid)).isSome
        · exact ⟨_, (hdom _).1 hs, by simp [hs]⟩
        · exact ⟨"unassigned", hun, by simp [hs]⟩
    obtain ⟨k, hk, hstep⟩ := hmain
    have hdom' : ∀ x, ((dictPush d k t) x).isSome ↔ x ∈ keys := by
      intro x
      rw [dictPush_isSome]
      constructor
      · rintro (rfl | h)
        · exact hk
        · exact (hdom x).1 h
      · intro h
        exact Or.inr ((hdom x).2 h)
    rw [hstep, List.cons_append]
    refine (ih _ hdom').trans ?_
    have h2 := bucketsOf_dictPush groups d k t (hgk ▸ hnd) (hgk ▸ hk)
    exact (List.Perm.append_left _ h2).trans List.perm_middle

/-- The accumulator-based first-occurrence dedup produces a duplicate-free
list of elements not in `seen`. -/
theorem dedupKeepFirstAux_spec (l : List String) : ∀ (seen : List String),
    (dedupKeepFirstAux seen l).Nodup ∧
      ∀ x ∈ dedupKeepFirstAux seen l, x ∉ seen := by
  induction l with
  | nil =>
    intro seen
    exact ⟨List.nodup_nil, by intro x hx; cases hx⟩
  | cons a l ih =>
    intro seen
    by_cases ha : seen.contains a
    · rw [dedupKeepFirstAux, if_pos ha]
      exact ih seen
    · rw [dedupKeepFirstAux, if_neg ha]
      have ha' : a ∉ seen := by simpa using ha
      obtain ⟨hnd, hmem⟩ := ih (a :: seen)
      refine ⟨List.nodup_cons.2 ⟨?_, hnd⟩, ?_⟩
      · intro hx
        exact hmem a hx (List.mem_cons_self a seen)
      · intro x hx
        rcases List.mem_cons.1 hx with rfl | hx'
        · exact ha'
        · intro hxs
          exact hmem x hx' (List.mem_cons_of_mem a hxs)

theorem dedupKeepFirst_nodup (l : List String) : (dedupKeepFirst l).Nodup :=
  (dedupKeepFirstAux_spec l []).1

/-- Every id produced by resolving member ids through `getUserById` comes
from the id list. -/
theorem mem_filterMap_getUserById (s : AppState) (l : List String) (x : String)
    (h : x ∈ (l.filterMap (getUserById s)).map User.id) : x ∈ l := by
  rw [List.mem_map] at h
  obtain ⟨u, hu, rfl⟩ := h
  rw [List.mem_filterMap] at hu
  obtain ⟨a, ha, hua⟩ := hu
  have hid : u.id = a := by simpa using List.find?_some hua
  rw [hid]
  exact ha

theorem filterMap_getUserById_ids_nodup (s : AppState) (l : List String)
    (h : l.Nodup) : ((l.filterMap (getUserById s)).map User.id).Nodup := by
  induction l with
  | nil => simp
  | cons a l ih =>
    rw [List.nodup_cons] at h
    rw [List.filterMap_cons]
    cases hu : getUserById s a with
    | none => exact ih h.2
    | some u =>
      rw [List.map_cons, List.nodup_cons]
      refine ⟨?_, ih h.2⟩
      intro hx
      have hid : u.id = a := by simpa using List.find?_some hu
      exact h.1 (hid ▸ mem_filterMap_getUserById s l u.id hx)

theorem getProjectMembers_ids_nodup (s : AppState) (pid : String) :
    ((getProjectMembers s pid).map User.id).Nodup := by
  unfold getProjectMembers
  exact filterMap_getUserById_ids_nodup s _ (dedupKeepFirst_nodup _)

/-- The assignee-mode group keys are duplicate-free: `unassigned` is no
`assignee-` key, and member ids are distinct. -/
theorem assigneeKeys_nodup (s : AppState) (pid : String) :
    ("unassigned" :: (getProjectMembers s pid).map
      (fun m => "assignee-" ++ m.id)).Nodup := by
  refine List.nodup_cons.2 ⟨?_, ?_⟩
  · intro h
    rw [List.mem_map] at h
    obtain ⟨m, _, hm⟩ := h
    have hd := congrArg String.data hm
    simp [String.data_append] at hd
  · have h1 := getProjectMembers_ids_nodup s pid
    have h2 : (getProjectMembers s pid).map (fun m => "assignee-" ++ m.id) =
        ((getProjectMembers s pid).map User.id).map (fun i => "assignee-" ++ i) := by
      rw [List.map_map]
      rfl
    rw [h2]
    refine List.Nodup.map ?_ h1
    intro a b hab
    have hd := congrArg String.data hab
    simp [String.data_append] at hd
    exact String.ext hd

/-- C7 counterexample state: project `p1` with one status `s1`, one task
whose `status_id` points at the nonexistent status `sX`. -/
def unknownStatusState : AppState := { baseState with
  tasks := [mkTask "a" "p1" 1 "A" (some "sX") none none (some 1) false],
  statuses := [⟨"s1", "p1", "Todo", "gray", "todo", 1⟩] }

/-- C7 counterexample: in status-grouping mode a task whose `status_id`
matches no project status is silently dropped from every group — the
union of the rendered groups is empty although the input has one task,
contradicting the claimed "placed in a fallback bucket rather than being
dropped". -/
theorem status_grouping_drops_unknown_status_task :
    (renderedGroupTasks (getGroupsForTasks unknownStatusState
      [mkTask "a" "p1" 1 "A" (some "sX") none none (some 1) false]
      ⟨"p1", "TC", "proj", "Proj"⟩ "status")).flatten = [] ∧
    [mkTask "a" "p1" 1 "A" (some "sX") none none (some 1) false] ≠ ([] : List Task) := by
  refine ⟨by decide, by decide⟩

/-- C7 (amended): grouping places every task in exactly one bucket — the
union of the rendered groups is a permutation of the input — in the
`none`, `priority` and `assignee` modes (the latter two via their
`priority-none` / `unassigned` fallbacks); in `status` mode the union is
a permutation of the tasks whose `status_id` matches a project status,
and tasks with an unknown or null `status_id` are dropped. -/
theorem grouping_partitions_tasks :
    (∀ (s : AppState) (tasks : List Task) (project : Project),
      (renderedGroupTasks (getGroupsForTasks s tasks project "none")).flatten
        = tasks) ∧
    (∀ (s : AppState) (tasks : List Task) (project : Project),
      ((renderedGroupTasks (getGroupsForTasks s tasks project "priority")).flatten).Perm
        tasks) ∧
    (∀ (s : AppState) (tasks : List Task) (project : Project),
      ((renderedGroupTasks (getGroupsForTasks s tasks project "assignee")).flatten).Perm
        tasks) ∧
    (∀ (s : AppState) (tasks : List Task) (project : Project),
      ((getStatusesForProject s project.id).map Status.id).Nodup →
      ((renderedGroupTasks (getGroupsForTasks s tasks project "status")).flatten).Perm
        (tasks.filter (fun t =>
          match t.status_id with
          | some sid =>
            decide (sid ∈ (getStatusesForProject s project.id).map Status.id)
          | none => false))) := by
  refine ⟨?_, ?_, ?_, ?_⟩
  · intro s tasks project
    rw [bucketsOf_eq_flatten, getGroupsForTasks, if_pos rfl]
    simp [bucketsOf, dictSet_same]
  · intro s tasks project
    rw [bucketsOf_eq_flatten, getGroupsForTasks,
      if_neg (by decide), if_neg (by decide), if_pos rfl]
    dsimp only
    have hdom : ∀ x,
        ((([⟨"priority-high", "High", "priority"⟩,
            ⟨"priority-medium", "Medium", "priority"⟩,
            ⟨"priority-low", "Low", "priority"⟩,
            ⟨"priority-none", "No Priority", "priority"⟩] : List Group).foldl
          (fun d g => dictSet d g.id []) emptyDict) x).isSome ↔
        x ∈ ["priority-high", "priority-medium", "priority-low", "priority-none"] := by
      intro x
      rw [isSome_foldl_dictSet]
      simp [emptyDict]
    refine (foldl_priorityStep_perm _ _ rfl (by decide) (by decide)
      tasks _ hdom).trans ?_
    rw [bucketsOf_all_nil _ _ ?_, List.append_nil]
    intro x
    exact getD_foldl_dictSet_nil Group.id _ emptyDict (fun _ => rfl) x
  · intro s tasks project
    rw [bucketsOf_eq_flatten, getGroupsForTasks,
      if_neg (by decide), if_neg (by decide), if_neg (by decide), if_pos rfl]
    dsimp only
    have hdom : ∀ x,
        (((getProjectMembers s project.id).foldl
            (fun d m => dictSet d ("assignee-" ++ m.id) [])
            (dictSet emptyDict "unassigned" []) x).isSome ↔
          x ∈ "unassigned" :: (getProjectMembers s project.id).map
            (fun m => "assignee-" ++ m.id)) := by
      intro x
      rw [isSome_foldl_dictSet, List.mem_cons]
      by_cases hy : x = "unassigned"
      · subst hy
        simp [dictSet_same]
      · rw [dictSet_ne _ _ _ _ hy]
        simp [emptyDict, hy]
    refine (foldl_assigneeStep_perm
      ((⟨"unassigned", "Unassigned", "assignee"⟩ : Group) ::
        (getProjectMembers s project.id).map
          (fun m => (⟨"assignee-" ++ m.id, m.name, "assignee"⟩ : Group)))
      ("unassigned" :: (getProjectMembers s project.id).map
        (fun m => "assignee-" ++ m.id))
      (by rw [List.map_cons, List.map_map]; rfl)
      (assigneeKeys_nodup s project.id)
      (List.mem_cons_self _ _) tasks _ hdom).trans ?_
    rw [bucketsOf_all_nil _ _ ?_, List.append_nil]
    intro x
    refine getD_foldl_dictSet_nil (fun (m : User) => "assignee-" ++ m.id) _ _ ?_ x
    intro y
    by_cases hy : y = "unassigned"
    · subst hy
      simp [dictSet_same]
    · rw [dictSet_ne _ _ _ _ hy]
      rfl
  · intro s tasks project hnd
    rw [bucketsOf_eq_flatten, getGroupsForTasks,
      if_neg (by decide), if_pos rfl]
    dsimp only
    have hdom : ∀ x,
        (((getStatusesForProject s project.id).foldl
            (fun d st => dictSet d st.id []) emptyDict x).isSome ↔
          x ∈ (getStatusesForProject s project.id).map Status.id) := by
      intro x
      rw [isSome_foldl_dictSet]
      simp [emptyDict]
    refine (foldl_statusStep_perm
      ((getStatusesForProject s project.id).map
        (fun st => (⟨st.id, st.name, "status"⟩ : Group)))
      ((getStatusesForProject s project.id).map Status.id)
      (by rw [List.map_map]; rfl) hnd tasks _ hdom).trans ?_
    rw [bucketsOf_all_nil _ _ ?_, List.append_nil]
    intro x
    exact getD_foldl_dictSet_nil Status.id _ emptyDict (fun _ => rfl) x

/-- Witness for `grouping_partitions_tasks` on a concrete state with a
duplicate-free status list. -/
theorem grouping_partitions_tasks_witness :
    (((getStatusesForProject unknownStatusState "p1").map Status.id).Nodup) ∧
    ((renderedGroupTasks (getGroupsForTasks unknownStatusState
        [mkTask "a" "p1" 1 "A" (some "s1") none none (some 1) false]
        ⟨"p1", "TC", "proj", "Proj"⟩ "status")).flatten).Perm
      ([mkTask "a" "p1" 1 "A" (some "s1") none none (some 1) false].filter (fun t =>
        match t.status_id with
        | some sid =>
          decide (sid ∈ (getStatusesForProject unknownStatusState "p1").map Status.id)
        | none => false)) :=
  ⟨by decide,
   grouping_partitions_tasks.2.2.2 unknownStatusState
     [mkTask "a" "p1" 1 "A" (some "s1") none none (some 1) false]
     ⟨"p1", "TC", "proj", "Proj"⟩ (by decide)⟩

/-! ## Shared `moveTask` reordering machinery (C1, C4) -/

theorem insertStable_perm {α : Type} (le : α → α → Bool) (x : α) (l : List α) :
    (insertStable le x l).Perm (x :: l) := by
  induction l with
  | nil => exact List.Perm.refl _
  | cons y ys ih =>
    rw [insertStable]
    by_cases h : le y x
    · rw [if_pos h]
      exact (ih.cons y).trans (List.Perm.swap x y ys)
    · rw [if_neg h]

theorem foldl_insertStable_perm {α : Type} (le : α → α → Bool) :
    ∀ (l acc : List α),
      (l.foldl (fun acc x => insertStable le x acc) acc).Perm (l ++ acc) := by
  intro l
  induction l with
  | nil =>
    intro acc
    simp
  | cons x xs ih =>
    intro acc
    rw [List.foldl_cons, List.cons_append]
    refine (ih (insertStable le x acc)).trans ?_
    refine (List.Perm.append_left xs (insertStable_perm le x acc)).trans ?_
    exact List.perm_middle

theorem jsStableSort_perm {α : Type} (le : α → α → Bool) (l : List α) :
    (jsStableSort le l).Perm l := by
  unfold jsStableSort
  simpa using foldl_insertStable_perm le l []

theorem replaceFirstTask_self (l : List Task) (tid : String) (task : Task)
    (h : l.find? (fun t => t.id = tid) = some task) :
    replaceFirstTask l tid task = l := by
  induction l with
  | nil => rfl
  | cons t ts ih =>
    by_cases ht : t.id = tid
    · rw [List.find?_cons_of_pos _ (by simpa using ht)] at h
      rw [replaceFirstTask, if_pos ht]
      rw [(Option.some.injEq _ _ ▸ h : t = task)]
    · rw [List.find?_cons_of_neg _ (by simpa using ht)] at h
      rw [replaceFirstTask, if_neg ht, ih h]

theorem map_id_replaceFirstTask (l : List Task) (tid : String) (t' : Task)
    (h : t'.id = tid) :
    (replaceFirstTask l tid t').map Task.id = l.map Task.id := by
  induction l with
  | nil => rfl
  | cons t ts ih =>
    by_cases ht : t.id = tid
    · rw [replaceFirstTask, if_pos ht]
      simp [h, ht]
    · rw [replaceFirstTask, if_neg ht]
      simp [ih]

theorem mem_replaceFirstTask (l : List Task) (tid : String) (t' : Task)
    (task : Task) (h : l.find? (fun t => t.id = tid) = some task) :
    t' ∈ replaceFirstTask l tid t' := by
  induction l with
  | nil => cases h
  | cons t ts ih =>
    by_cases ht : t.id = tid
    · rw [replaceFirstTask, if_pos ht]
      exact List.mem_cons_self _ _
    · rw [List.find?_cons_of_neg _ (by simpa using ht)] at h
      rw [replaceFirstTask, if_neg ht]
      exact List.mem_cons_of_mem _ (ih h)

/-- The classification update touches only the classification fields and
the timestamp: project, archived flag and `sort_order` survive. -/
theorem applyClassification_fields (task : Task) (now : Nat) (gid gt : String) :
    ((applyClassification task now gid gt).1).project_id = task.project_id ∧
    ((applyClassification task now gid gt).1).is_archived = task.is_archived ∧
    ((applyClassification task now gid gt).1).sort_order = task.sort_order := by
  unfold applyClassification
  dsimp only
  split_ifs <;> exact ⟨rfl, rfl, rfl⟩

theorem findIdx?_some_lt {α : Type} {l : List α} {p : α → Bool} {i : Nat}
    (h : l.findIdx? p = some i) : i < l.length :=
  (List.findIdx?_eq_some_iff_findIdx_eq.1 h).1

theorem findIdx?_some_getElem {α : Type} {l : List α} {p : α → Bool} {i : Nat}
    (h : l.findIdx? p = some i) (hi : i < l.length) : p l[i] = true := by
  obtain ⟨hlt, hfi⟩ := List.findIdx?_eq_some_iff_findIdx_eq.1 h
  subst hfi
  exact List.findIdx_getElem

theorem perm_getElem_cons_eraseIdx {α : Type} (l : List α) (i : Nat)
    (h : i < l.length) : l.Perm (l[i] :: l.eraseIdx i) := by
  conv_lhs => rw [← List.take_append_drop i l, List.drop_eq_getElem_cons h]
  rw [List.eraseIdx_eq_take_drop_succ]
  exact List.perm_middle

/-- Whatever the drop target, the reordered bucket list `moveTask` builds
is a permutation of the (still unsorted) bucket, provided the dragged
task is itself a bucket member with a unique id. -/
theorem computeReordered_perm (tasks : List Task) (pid : String) (task' : Task)
    (rel : Option String) (ins : Bool)
    (hnd : ((tasks.filter (bucketPred pid task'.status_id)).map Task.id).Nodup)
    (hmem : task' ∈ tasks.filter (bucketPred pid task'.status_id)) :
    (computeReordered tasks pid task' rel ins).Perm
      (tasks.filter (bucketPred pid task'.status_id)) := by
  unfold computeReordered
  dsimp only
  have hperm : (jsStableSort soLe (tasks.filter (bucketPred pid task'.status_id))).Perm
      (tasks.filter (bucketPred pid task'.status_id)) := jsStableSort_perm _ _
  set collected := jsStableSort soLe (tasks.filter (bucketPred pid task'.status_id))
    with hc
  have hmem' : task' ∈ collected := hperm.mem_iff.2 hmem
  have hndc : (collected.map Task.id).Nodup := ((hperm.map Task.id).nodup_iff).2 hnd
  cases hidx : collected.findIdx? (fun t => t.id = task'.id) with
  | none =>
    have := List.findIdx?_eq_none_iff.1 hidx task' hmem'
    simp at this
  | some i =>
    have hi : i < collected.length := findIdx?_some_lt hidx
    have hpi : collected[i].id = task'.id := by
      simpa using findIdx?_some_getElem hidx hi
    have hEq : collected[i] = task' :=
      List.inj_on_of_nodup_map hndc (List.getElem_mem hi) hmem' hpi
    have hsplit : collected.Perm (task' :: collected.eraseIdx i) :=
      hEq ▸ perm_getElem_cons_eraseIdx collected i hi
    have hfin : ∀ n, n ≤ (collected.eraseIdx i).length →
        ((collected.eraseIdx i).insertIdx n task').Perm
          (tasks.filter (bucketPred pid task'.status_id)) := by
      intro n hn
      refine (List.perm_insertIdx task' _ hn).trans ?_
      exact hsplit.symm.trans hperm
    cases rel with
    | none =>
      exact hfin _ le_rfl
    | some rid =>
      dsimp only
      cases hrid : (collected.eraseIdx i).findIdx? (fun t => t.id = rid) with
      | none =>
        exact hfin _ le_rfl
      | some ri =>
        have hri : ri < (collected.eraseIdx i).length := findIdx?_some_lt hrid
        cases ins with
        | true =>
          dsimp only
          rw [if_pos rfl]
          exact hfin ri (le_of_lt hri)
        | false =>
          dsimp only
          rw [if_neg (by decide)]
          exact hfin (ri + 1) hri

/-- When the dragged task is not archived, the reindex cohort coincides
with the destination bucket: the id escape hatch in `reindexCohort` never
fires for any other task. -/
theorem filter_reindexCohort_of_not_archived (tasks : List Task) (pid : String)
    (st : Option String) (task' : Task)
    (hnd : (tasks.map Task.id).Nodup)
    (hmem : task' ∈ tasks)
    (harch : task'.is_archived = false) :
    tasks.filter (reindexCohort pid st task'.id) =
      tasks.filter (bucketPred pid st) := by
  refine List.filter_congr ?_
  intro t ht
  by_cases he : t.id = task'.id
  · have heq : t = task' := List.inj_on_of_nodup_map hnd ht hmem he
    rw [heq]
    simp [reindexCohort, bucketPred, harch]
  · simp [reindexCohort, bucketPred, he]

/-- When the dragged task IS archived, the reindex cohort is the
destination bucket plus the dragged task itself. -/
theorem filter_reindexCohort_of_archived (tasks : List Task) (pid : String)
    (task' : Task)
    (hnd : (tasks.map Task.id).Nodup)
    (hmem : task' ∈ tasks)
    (hpid : task'.project_id = pid)
    (harch : task'.is_archived = true) :
    (tasks.filter (reindexCohort pid task'.status_id task'.id)).Perm
      (task' :: tasks.filter (bucketPred pid task'.status_id)) := by
  obtain ⟨l1, l2, rfl⟩ := List.append_of_mem hmem
  have hnd' : (Task.id task' :: (l1.map Task.id ++ l2.map Task.id)).Nodup := by
    refine List.nodup_middle.1 ?_
    simpa using hnd
  have hnotin : Task.id task' ∉ l1.map Task.id ++ l2.map Task.id :=
    (List.nodup_cons.1 hnd').1
  have hne1 : ∀ t ∈ l1, ¬(t.id = task'.id) := by
    intro t ht he
    exact hnotin (List.mem_append_left _
      (by rw [← he]; exact List.mem_map_of_mem Task.id ht))
  have hne2 : ∀ t ∈ l2, ¬(t.id = task'.id) := by
    intro t ht he
    exact hnotin (List.mem_append_right _
      (by rw [← he]; exact List.mem_map_of_mem Task.id ht))
  have hcoh : ∀ (l : List Task), (∀ t ∈ l, ¬(t.id = task'.id)) →
      l.filter (reindexCohort pid task'.status_id task'.id) =
        l.filter (bucketPred pid task'.status_id) := by
    intro l hl
    refine List.filter_congr ?_
    intro t ht
    simp [reindexCohort, bucketPred, hl t ht]
  have hct : reindexCohort pid task'.status_id task'.id task' = true := by
    simp [reindexCohort, hpid]
  have hbt : ¬ bucketPred pid task'.status_id task' = true := by
    simp [bucketPred, harch]
  rw [List.filter_append, List.filter_append,
      List.filter_cons_of_pos hct, List.filter_cons_of_neg hbt,
      hcoh l1 hne1, hcoh l2 hne2]
  exact List.perm_middle

/-- An archived dragged task never occurs in the sorted destination
bucket, so the removal lookup in `computeReordered` misses. -/
theorem sorted_bucket_findIdx_none_of_archived (tasks : List Task)
    (pid : String) (st : Option String) (task' : Task)
    (hnd : (tasks.map Task.id).Nodup)
    (hmem : task' ∈ tasks)
    (harch : task'.is_archived = true) :
    (jsStableSort soLe (tasks.filter (bucketPred pid st))).findIdx?
      (fun (t : Task) => t.id = task'.id) = none := by
  rw [List.findIdx?_eq_none_iff]
  intro x hx
  have hxB : x ∈ tasks.filter (bucketPred pid st) :=
    (jsStableSort_perm soLe _).mem_iff.1 hx
  obtain ⟨hxT, hxP⟩ := List.mem_filter.1 hxB
  simp only [decide_eq_false_iff_not]
  intro he
  have hxe : x = task' := List.inj_on_of_nodup_map hnd hxT hmem he
  rw [hxe] at hxP
  simp [bucketPred, harch] at hxP

/-- Whatever the drop target and whether or not the dragged task is
archived, the reordered list `moveTask` builds is a permutation of the
reindex cohort. -/
theorem computeReordered_perm_cohort (tasks : List Task) (pid : String)
    (task' : Task) (rel : Option String) (ins : Bool)
    (hnd : (tasks.map Task.id).Nodup)
    (hmem : task' ∈ tasks)
    (hpid : task'.project_id = pid) :
    (computeReordered tasks pid task' rel ins).Perm
      (tasks.filter (reindexCohort pid task'.status_id task'.id)) := by
  cases harch : task'.is_archived with
  | false =>
    rw [filter_reindexCohort_of_not_archived tasks pid task'.status_id task'
      hnd hmem harch]
    refine computeReordered_perm tasks pid task' rel ins ?_ ?_
    · exact ((List.filter_sublist tasks).map Task.id).nodup hnd
    · exact List.mem_filter.2 ⟨hmem, by simp [bucketPred, hpid, harch]⟩
  | true =>
    have hperm2 := filter_reindexCohort_of_archived tasks pid task' hnd hmem hpid harch
    unfold computeReordered
    dsimp only
    set collected := jsStableSort soLe (tasks.filter (bucketPred pid task'.status_id))
      with hc
    have hnone : collected.findIdx? (fun (t : Task) => t.id = task'.id) = none := by
      rw [hc]
      exact sorted_bucket_findIdx_none_of_archived tasks pid task'.status_id task'
        hnd hmem harch
    cases hidx : collected.findIdx? (fun t => t.id = task'.id) with
    | some i =>
      rw [hnone] at hidx
      simp at hidx
    | none =>
      dsimp only
      have hfin : ∀ n, n ≤ collected.length →
          (collected.insertIdx n task').Perm
            (tasks.filter (reindexCohort pid task'.status_id task'.id)) := by
        intro n hn
        refine (List.perm_insertIdx task' _ hn).trans ?_
        refine (List.Perm.cons task' ?_).trans hperm2.symm
        rw [hc]
        exact jsStableSort_perm _ _
      cases rel with
      | none => exact hfin _ le_rfl
      | some rid =>
        dsimp only
        cases hrid : collected.findIdx? (fun t => t.id = rid) with
        | none => exact hfin _ le_rfl
        | some ri =>
          have hri : ri < collected.length := findIdx?_some_lt hrid
          cases ins with
          | true =>
            dsimp only
            rw [if_pos rfl]
            exact hfin ri (le_of_lt hri)
          | false =>
            dsimp only
            rw [if_neg (by decide)]
            exact hfin (ri + 1) hri

/-- In a list with duplicate-free ids, looking up the id of the `j`-th
element finds exactly index `j`. -/
theorem findIdx?_self_of_nodup (r : List Task) (hnd : (r.map Task.id).Nodup)
    (j : Nat) (hj : j < r.length) :
    r.findIdx? (fun x => x.id = r[j].id) = some j := by
  rw [List.findIdx?_eq_some_iff_findIdx_eq]
  refine ⟨hj, ?_⟩
  rw [List.findIdx_eq hj]
  refine ⟨by simp, ?_⟩
  intro k hk
  simp only [decide_eq_false_iff_not]
  intro he
  have hkj : r[k] = r[j] :=
    List.inj_on_of_nodup_map hnd (List.getElem_mem _) (List.getElem_mem _) he
  have := (List.Nodup.getElem_inj_iff (List.Nodup.of_map _ hnd)).1 hkj
  omega

/-- Reading the reindexed `sort_order`s along the reordered bucket itself
enumerates `1..N`. -/
theorem reindexed_sort_orders (r : List Task) (hnd : (r.map Task.id).Nodup) :
    (r.map (fun t =>
      (match r.findIdx? (fun (x : Task) => x.id = t.id) with
       | some i => { t with sort_order := some (i + 1) }
       | none => t).sort_order)) =
      (List.range r.length).map (fun i => some (i + 1)) := by
  refine List.ext_getElem (by simp) ?_
  intro n h1 h2
  have hn : n < r.length := by simpa using h1
  simp only [List.getElem_map]
  rw [findIdx?_self_of_nodup r hnd n hn]
  simp

/-- C1 (amended): after any `moveTask` — the dragged task may be archived
or not — the reindex cohort of the destination `(project, status)` bucket
(its non-archived tasks together with the dragged task itself, which joins
the reindex even when archived) carries `sort_order`s that are exactly a
permutation of `{1, …, M}`; nothing is claimed for the bucket the task
left (it is not reindexed), and quick-add assigns no `sort_order` at
all. -/
theorem move_task_reindexes_destination_bucket_densely
    (s : AppState) (now : Nat) (slug tid gid gt : String)
    (rel : Option String) (ins : Bool) (task : Task) (project : Project)
    (hfind : getTaskById s tid = some task)
    (hproj : getProjectBySlug s slug = some project)
    (hpid : task.project_id = project.id)
    (hnd : (s.tasks.map Task.id).Nodup) :
    (((moveTask s now slug tid gid gt rel ins).tasks.filter
        (reindexCohort project.id ((applyClassification task now gid gt).1).status_id tid)).map
      Task.sort_order).Perm
      ((List.range ((moveTask s now slug tid gid gt rel ins).tasks.filter
          (reindexCohort project.id ((applyClassification task now gid gt).1).status_id tid)).length).map
        (fun i => some (i + 1))) := by
  have htid : task.id = tid := by simpa using List.find?_some hfind
  have hpid0 : ((applyClassification task now gid gt).1).project_id = project.id := by
    rw [(applyClassification_fields task now gid gt).1, hpid]
  set task' := (applyClassification task now gid gt).1 with ht'
  have hid' : task'.id = tid := by rw [ht', applyClassification_id, htid]
  unfold moveTask
  rw [hfind, hproj]
  dsimp only
  set tasks1 := replaceFirstTask s.tasks tid task' with h1
  have hnd1 : (tasks1.map Task.id).Nodup := by
    rw [h1, map_id_replaceFirstTask _ _ _ hid']
    exact hnd
  have hmem1 : task' ∈ tasks1 :=
    mem_replaceFirstTask s.tasks tid task' task (by simpa [getTaskById] using hfind)
  have hR := computeReordered_perm_cohort tasks1 project.id task' rel ins hnd1 hmem1 hpid0
  rw [hid'] at hR
  set reordered := computeReordered tasks1 project.id task' rel ins with hrd
  have hndB : ((tasks1.filter (reindexCohort project.id task'.status_id tid)).map Task.id).Nodup :=
    ((List.filter_sublist tasks1).map Task.id).nodup hnd1
  have hndR : (reordered.map Task.id).Nodup := ((hR.map Task.id).nodup_iff).2 hndB
  have hcomm : (applyReindex tasks1 reordered).filter
      (reindexCohort project.id task'.status_id tid) =
      (tasks1.filter (reindexCohort project.id task'.status_id tid)).map
        (fun t => match reordered.findIdx? (fun r => r.id = t.id) with
          | some i => { t with sort_order := some (i + 1) }
          | none => t) := by
    unfold applyReindex
    rw [List.filter_map]
    congr 1
    refine List.filter_congr ?_
    intro t _
    cases h : reordered.findIdx? (fun r => r.id = t.id) <;>
      simp [Function.comp, h, reindexCohort]
  rw [hcomm, List.map_map, List.length_map]
  have hmm : ((tasks1.filter (reindexCohort project.id task'.status_id tid)).map
      (Task.sort_order ∘ fun t =>
        match reordered.findIdx? (fun r => r.id = t.id) with
        | some i => { t with sort_order := some (i + 1) }
        | none => t)).Perm
      (reordered.map (Task.sort_order ∘ fun t =>
        match reordered.findIdx? (fun r => r.id = t.id) with
        | some i => { t with sort_order := some (i + 1) }
        | none => t)) :=
    (hR.symm).map _
  refine hmm.trans ?_
  have hlen : reordered.length =
      (tasks1.filter (reindexCohort project.id task'.status_id tid)).length :=
    hR.length_eq
  rw [show (reordered.map (Task.sort_order ∘ fun t =>
      match reordered.findIdx? (fun r => r.id = t.id) with
      | some i => { t with sort_order := some (i + 1) }
      | none => t)) = (List.range reordered.length).map (fun i => some (i + 1))
    from reindexed_sort_orders reordered hndR, hlen]

/-! ## C1 / C4 example states and remaining `moveTask` lemmas -/

/-- Two tasks in status `s1` of project `p1` (dense sort orders 1, 2),
plus an empty second status `s2`. -/
def moveDemoState : AppState := { baseState with
  tasks := [mkTask "a" "p1" 1 "A" (some "s1") none none (some 1) false,
            mkTask "b" "p1" 2 "B" (some "s1") none none (some 2) false],
  statuses := [⟨"s1", "p1", "Todo", "gray", "todo", 1⟩,
               ⟨"s2", "p1", "Doing", "blue", "in_progress", 2⟩] }

/-- An ARCHIVED task `a` in status `s1` plus two live tasks `x`, `y` in
status `s2` (rows stay draggable when archived tasks are shown, so this
drag is reachable). Dragging `a` into `s2` exercises the reindex with an
archived dragged task. -/
def archivedMoveDemoState : AppState := { baseState with
  tasks := [mkTask "a" "p1" 1 "A" (some "s1") none none (some 1) true,
            mkTask "x" "p1" 2 "X" (some "s2") none none (some 1) false,
            mkTask "y" "p1" 3 "Y" (some "s2") none none (some 2) false],
  statuses := [⟨"s1", "p1", "Todo", "gray", "todo", 1⟩,
               ⟨"s2", "p1", "Doing", "blue", "in_progress", 2⟩] }

/-- Concrete archived-drag trace: after dropping archived `a` into `s2`
above `x`, the non-archived destination bucket alone reads `{2, 3}` — the
archived dragged task absorbed rank 1 — while the full reindex cohort
reads `{1, 2, 3}`. -/
theorem archived_drag_cohort_trace :
    ((moveTask archivedMoveDemoState 9 "proj" "a" "s2" "status" (some "x")
        true).tasks.filter
      (bucketPred "p1" (some "s2"))).map Task.sort_order =
        [some 2, some 3] ∧
    ((moveTask archivedMoveDemoState 9 "proj" "a" "s2" "status" (some "x")
        true).tasks.filter
      (reindexCohort "p1" (some "s2") "a")).map Task.sort_order =
        [some 1, some 2, some 3] :=
  ⟨by decide, by decide⟩

theorem find?_congr_pointwise {α : Type} (p q : α → Bool) (l : List α)
    (h : ∀ a ∈ l, p a = q a) : l.find? p = l.find? q := by
  induction l with
  | nil => rfl
  | cons a l ih =>
    rw [List.find?, List.find?, h a (List.mem_cons_self a l)]
    cases q a
    · exact ih (fun b hb => h b (List.mem_cons_of_mem a hb))
    · rfl

/-- `find?` through the reindex: the found task is the old one with its
bucket index written into `sort_order`. -/
theorem find?_applyReindex (tasks r : List Task) (tid : String) :
    (applyReindex tasks r).find? (fun t => t.id = tid) =
      (tasks.find? (fun t => t.id = tid)).map
        (fun t => match r.findIdx? (fun (x : Task) => x.id = t.id) with
          | some i => { t with sort_order := some (i + 1) }
          | none => t) := by
  unfold applyReindex
  rw [List.find?_map]
  congr 1
  refine find?_congr_pointwise _ _ tasks ?_
  intro t _
  cases h : r.findIdx? (fun (x : Task) => x.id = t.id) <;>
    simp [Function.comp, h]

/-- The reindex does not touch id, classification fields or timestamps. -/
theorem applyReindex_map_classif (tasks r : List Task) :
    (applyReindex tasks r).map
        (fun t => (t.id, t.status_id, t.priority_id, t.assignee_id, t.updated_at)) =
      tasks.map
        (fun t => (t.id, t.status_id, t.priority_id, t.assignee_id, t.updated_at)) := by
  unfold applyReindex
  rw [List.map_map]
  refine List.map_congr_left ?_
  intro t _
  cases h : r.findIdx? (fun (x : Task) => x.id = t.id) <;> simp [h]

/-- With no drop target, `computeReordered` places the dragged task at
the very end: looking its id up in the reordered bucket yields the last
index. -/
theorem computeReordered_none_findIdx (tasks : List Task) (pid : String)
    (task' : Task)
    (hnd : ((tasks.filter (bucketPred pid task'.status_id)).map Task.id).Nodup)
    (hmem : task' ∈ tasks.filter (bucketPred pid task'.status_id)) :
    (computeReordered tasks pid task' none false).findIdx?
        (fun (t : Task) => t.id = task'.id) =
      some ((tasks.filter (bucketPred pid task'.status_id)).length - 1) ∧
    0 < (tasks.filter (bucketPred pid task'.status_id)).length := by
  unfold computeReordered
  dsimp only
  have hperm : (jsStableSort soLe (tasks.filter (bucketPred pid task'.status_id))).Perm
      (tasks.filter (bucketPred pid task'.status_id)) := jsStableSort_perm _ _
  set collected := jsStableSort soLe (tasks.filter (bucketPred pid task'.status_id))
    with hc
  have hmem' : task' ∈ collected := hperm.mem_iff.2 hmem
  have hndc : (collected.map Task.id).Nodup := ((hperm.map Task.id).nodup_iff).2 hnd
  cases hidx : collected.findIdx? (fun t => t.id = task'.id) with
  | none =>
    have := List.findIdx?_eq_none_iff.1 hidx task' hmem'
    simp at this
  | some i =>
    dsimp only
    have hi : i < collected.length := findIdx?_some_lt hidx
    have hpi : collected[i].id = task'.id := by
      simpa using findIdx?_some_getElem hidx hi
    have hEq : collected[i] = task' :=
      List.inj_on_of_nodup_map hndc (List.getElem_mem hi) hmem' hpi
    have hsplit : collected.Perm (task' :: collected.eraseIdx i) :=
      hEq ▸ perm_getElem_cons_eraseIdx collected i hi
    have hndsplit : ((task' :: collected.eraseIdx i).map Task.id).Nodup :=
      ((hsplit.map Task.id).nodup_iff).1 hndc
    have hnotin : ∀ x ∈ collected.eraseIdx i, (x.id = task'.id) = False := by
      intro x hx
      simp only [List.map_cons, List.nodup_cons] at hndsplit
      simp only [eq_iff_iff, iff_false]
      intro he
      exact hndsplit.1 (he ▸ List.mem_map_of_mem Task.id hx)
    have hlenc : collected.length =
        (tasks.filter (bucketPred pid task'.status_id)).length := hperm.length_eq
    have herase : (collected.eraseIdx i).length = collected.length - 1 := by
      rw [List.length_eraseIdx, if_pos hi]
    constructor
    · rw [List.insertIdx_length_self, List.findIdx?_append]
      have hnone : (collected.eraseIdx i).findIdx?
          (fun (t : Task) => t.id = task'.id) = none := by
        rw [List.findIdx?_eq_none_iff]
        intro x hx
        simp [hnotin x hx]
      rw [hnone, Option.none_or]
      have h0 : ([task'] : List Task).findIdx?
          (fun (t : Task) => t.id = task'.id) = some 0 := by
        simp
      rw [h0]
      simp [herase, hlenc]
    · omega

/-- With no drop target, the dragged task lands at the very end of the
reindex cohort whether or not it is archived: its id looks up at index
`M - 1`, where `M` is the (positive) cohort size. -/
theorem computeReordered_none_findIdx_cohort (tasks : List Task)
    (pid : String) (task' : Task)
    (hnd : (tasks.map Task.id).Nodup)
    (hmem : task' ∈ tasks)
    (hpid : task'.project_id = pid) :
    (computeReordered tasks pid task' none false).findIdx?
        (fun (t : Task) => t.id = task'.id) =
      some ((tasks.filter (reindexCohort pid task'.status_id task'.id)).length - 1) ∧
    0 < (tasks.filter (reindexCohort pid task'.status_id task'.id)).length := by
  cases harch : task'.is_archived with
  | false =>
    rw [filter_reindexCohort_of_not_archived tasks pid task'.status_id task'
      hnd hmem harch]
    refine computeReordered_none_findIdx tasks pid task' ?_ ?_
    · exact ((List.filter_sublist tasks).map Task.id).nodup hnd
    · exact List.mem_filter.2 ⟨hmem, by simp [bucketPred, hpid, harch]⟩
  | true =>
    have hperm2 := filter_reindexCohort_of_archived tasks pid task' hnd hmem hpid harch
    have hlenC : (tasks.filter (reindexCohort pid task'.status_id task'.id)).length =
        (tasks.filter (bucketPred pid task'.status_id)).length + 1 := by
      rw [hperm2.length_eq]
      rfl
    unfold computeReordered
    dsimp only
    set collected := jsStableSort soLe (tasks.filter (bucketPred pid task'.status_id))
      with hc
    have hnone : collected.findIdx? (fun (t : Task) => t.id = task'.id) = none := by
      rw [hc]
      exact sorted_bucket_findIdx_none_of_archived tasks pid task'.status_id task'
        hnd hmem harch
    have hlenc : collected.length =
        (tasks.filter (bucketPred pid task'.status_id)).length := by
      rw [hc]
      exact (jsStableSort_perm _ _).length_eq
    cases hidx : collected.findIdx? (fun t => t.id = task'.id) with
    | some i =>
      rw [hnone] at hidx
      simp at hidx
    | none =>
      dsimp only
      constructor
      · rw [List.insertIdx_length_self, List.findIdx?_append, hnone, Option.none_or]
        have h0 : ([task'] : List Task).findIdx?
            (fun (t : Task) => t.id = task'.id) = some 0 := by
          simp
        rw [h0]
        simp [hlenC, hlenc]
      · omega

/-- C4 counterexample: dropping task `a` back onto its own bucket with
no target task moves it to the END of the bucket (sort orders flip to
`a ↦ 2, b ↦ 1`) instead of leaving the relative order unchanged. -/
theorem same_bucket_drop_moves_dragged_task_to_end :
    (moveTask moveDemoState 9 "proj" "a" "s1" "status" none false).tasks.map
      (fun t => (t.id, t.sort_order)) = [("a", some 2), ("b", some 1)] ∧
    moveDemoState.tasks.map (fun t => (t.id, t.sort_order)) =
      [("a", some 1), ("b", some 2)] :=
  ⟨by decide, by decide⟩

/-- C1 counterexample: moving `a` from `s1` to `s2` leaves the source
bucket `s1` holding sort order `{2}` — not the claimed `{1}` — and a
quick-added task enters its bucket with NO `sort_order` at all, so the
bucket's orders are not `{1, …, N}` either. -/
theorem move_and_quick_add_break_source_bucket_density :
    ((moveTask moveDemoState 9 "proj" "a" "s2" "status" none false).tasks.filter
      (bucketPred "p1" (some "s1"))).map Task.sort_order = [some 2] ∧
    ((handleQuickAddTask moveDemoState 9 "t-new" "New" "s1" "status" "proj").tasks.filter
      (bucketPred "p1" (some "s1"))).map Task.sort_order =
      [some 1, some 2, none] :=
  ⟨by decide, by decide⟩

/-- C4 (amended): a drop onto the task's current bucket with no target
task — issued by `handleListDrop`/`handleColumnDrop` for any group type
whose classification write is a no-op, and with the dragged task archived
or not — leaves every task's id, classification fields and `updated_at`
unchanged, but re-places the dragged task at the END of the reindex
cohort: its `sort_order` becomes the cohort size `M` (the non-archived
bucket mates plus the dragged task itself), rather than keeping its
position. -/
theorem move_task_same_bucket_no_target_appends_to_end
    (s : AppState) (now : Nat) (slug tid gid gt : String) (task : Task)
    (project : Project)
    (hfind : getTaskById s tid = some task)
    (hproj : getProjectBySlug s slug = some project)
    (hsame : applyClassification task now gid gt = (task, false))
    (hpid : task.project_id = project.id)
    (hnd : (s.tasks.map Task.id).Nodup) :
    ((moveTask s now slug tid gid gt none false).tasks.map
        (fun t => (t.id, t.status_id, t.priority_id, t.assignee_id, t.updated_at)) =
      s.tasks.map
        (fun t => (t.id, t.status_id, t.priority_id, t.assignee_id, t.updated_at))) ∧
    getTaskById (moveTask s now slug tid gid gt none false) tid =
      some { task with
        sort_order :=
          some ((s.tasks.filter (reindexCohort project.id task.status_id tid)).length) } := by
  have hfind' : s.tasks.find? (fun t => t.id = tid) = some task := by
    simpa [getTaskById] using hfind
  have htid : task.id = tid := by simpa using List.find?_some hfind'
  have hT1 : replaceFirstTask s.tasks tid task = s.tasks :=
    replaceFirstTask_self _ _ _ hfind'
  have hmemT : task ∈ s.tasks := List.mem_of_find?_eq_some hfind'
  obtain ⟨hfi, hpos⟩ :=
    computeReordered_none_findIdx_cohort s.tasks project.id task hnd hmemT hpid
  rw [htid] at hfi hpos
  unfold moveTask
  rw [hfind, hproj]
  dsimp only
  rw [hsame]
  dsimp only
  rw [hT1]
  constructor
  · exact applyReindex_map_classif s.tasks _
  · show (applyReindex s.tasks _).find? (fun t => t.id = tid) = _
    rw [find?_applyReindex, hfind']
    rw [Option.map_some', htid, hfi]
    dsimp only
    have hN : (s.tasks.filter (reindexCohort project.id task.status_id tid)).length - 1 + 1 =
        (s.tasks.filter (reindexCohort project.id task.status_id tid)).length :=
      Nat.succ_pred_eq_of_pos hpos
    rw [hN]

/-- Witness for `move_task_same_bucket_no_target_appends_to_end` on the
two-task demo state (a status-group drop whose classification write is a
no-op). -/
theorem move_task_same_bucket_no_target_appends_to_end_witness :
    ((moveTask moveDemoState 9 "proj" "a" "s1" "status" none false).tasks.map
        (fun t => (t.id, t.status_id, t.priority_id, t.assignee_id, t.updated_at)) =
      moveDemoState.tasks.map
        (fun t => (t.id, t.status_id, t.priority_id, t.assignee_id, t.updated_at))) ∧
    getTaskById (moveTask moveDemoState 9 "proj" "a" "s1" "status" none false) "a" =
      some { mkTask "a" "p1" 1 "A" (some "s1") none none (some 1) false with
        sort_order :=
          some ((moveDemoState.tasks.filter
            (reindexCohort (Project.mk "p1" "TC" "proj" "Proj").id
              (mkTask "a" "p1" 1 "A" (some "s1") none none
                (some 1) false).status_id "a")).length) } :=
  move_task_same_bucket_no_target_appends_to_end moveDemoState 9 "proj" "a" "s1"
    "status"
    (mkTask "a" "p1" 1 "A" (some "s1") none none (some 1) false)
    ⟨"p1", "TC", "proj", "Proj"⟩
    (by decide) (by decide) (by decide) (by decide) (by decide)

/-- Witness for `move_task_reindexes_destination_bucket_densely`: dropping
the ARCHIVED task `a` into `s2` above `x` — the reindex cohort `{a, x, y}`
ends with sort orders a permutation of `{1, 2, 3}` (the non-archived
bucket alone is left at `{2, 3}`). -/
theorem move_task_reindexes_destination_bucket_densely_witness :
    (((moveTask archivedMoveDemoState 9 "proj" "a" "s2" "status" (some "x")
        true).tasks.filter
        (reindexCohort (Project.mk "p1" "TC" "proj" "Proj").id
          ((applyClassification (mkTask "a" "p1" 1 "A" (some "s1") none none
            (some 1) true) 9 "s2" "status").1).status_id "a")).map
      Task.sort_order).Perm
      ((List.range ((moveTask archivedMoveDemoState 9 "proj" "a" "s2" "status"
          (some "x") true).tasks.filter
          (reindexCohort (Project.mk "p1" "TC" "proj" "Proj").id
            ((applyClassification (mkTask "a" "p1" 1 "A" (some "s1") none none
              (some 1) true) 9 "s2" "status").1).status_id "a")).length).map
        (fun i => some (i + 1))) :=
  move_task_reindexes_destination_bucket_densely archivedMoveDemoState 9 "proj" "a"
    "s2" "status" (some "x") true
    (mkTask "a" "p1" 1 "A" (some "s1") none none (some 1) true)
    ⟨"p1", "TC", "proj", "Proj"⟩
    (by decide) (by decide) (by decide) (by decide)

end TaskCanvas
